import Mathlib

/-!
# MesaFS on-disk core: shallow embedding and verification

This file embeds the MesaFS volume core of the repository — the formatter
(`mesafs-format.c`), the file injector (`inject-file.c`) and the read-only
lister (`mesafs-list.c`) — as executable Lean definitions, and settles the
specification's claims about them.

Byte buffers (blocks, bitmaps, record images, file contents) are modelled as
natural numbers packing their bytes little-endian: byte `i` of buffer `n` is
`n >>> (8*i) % 256`.  This is value-equivalent to the C byte arrays (trailing
zero bytes of a 4096-byte block are implicit), and the C idioms translate
directly: reading the `uint32_t` at byte offset `o` of a packed struct is
`n >>> (8*o) % 2^32`; `bitmap[bit/8] |= 1 << (bit%8)` sets exactly bit
`8*(bit/8) + bit%8 = bit` of the packed value, and the corresponding test
reads exactly that bit.  The volume state tracks the four on-disk regions the
tools touch: block 0 (superblock overlaid on the block bitmap), the inode
bitmap block, the inode table (blocks 2–9, accessed only through the packed
128-byte-record cast, modelled as records) and the data region (an
association list of written blocks, most recent write first, mirroring
last-write-wins on disk; a never-written block reads as zero bytes).
All 32-bit counter arithmetic is performed modulo 2^32, as in the C tools.
-/

set_option maxRecDepth 10000
set_option exponentiation.threshold 100000

namespace MesaFS

/-- 2^32, the modulus of all `uint32_t` arithmetic in the tools. -/
def M32 : Nat := 4294967296

/-- `uint32_t` subtraction `a - b` (wrapping), as performed by the C tools. -/
def sub32 (a b : Nat) : Nat := (a % M32 + (M32 - b % M32)) % M32

/-- `MESAFS_MAGIC` = 0x4D455341 ("MESA"). -/
def MESAFS_MAGIC : Nat := 0x4D455341

def MESAFS_BLOCK_SIZE : Nat := 4096
def MESAFS_TYPE_FILE : Nat := 1
def MESAFS_TYPE_DIR : Nat := 2
def MESAFS_FLAG_USED : Nat := 1
def MESAFS_MAX_FILENAME : Nat := 56
def MESAFS_DIRECT_BLOCKS : Nat := 10
def MESAFS_INODE_TABLE_START : Nat := 2
def MESAFS_INODE_TABLE_BLOCKS : Nat := 8
def MESAFS_DATA_START : Nat := 10

/-- The first `k` bytes of a packed byte string (a `memcpy` source prefix). -/
def bytesTake (n k : Nat) : Nat := n % 256 ^ k

/-- The byte string starting at byte offset `k` (pointer arithmetic `buf + k`). -/
def bytesDrop (n k : Nat) : Nat := n >>> (8 * k)

/-- Byte `i` of a packed byte string (`buf[i]`). -/
def byteAt (n i : Nat) : Nat := n >>> (8 * i) % 256

/-- `bitmap_set`: `bitmap[bit/8] |= 1 << (bit%8)` — on the packed value this
sets exactly bit `8*(bit/8) + bit%8 = bit`. -/
def bitmap_set (bm bit : Nat) : Nat := bm ||| (1 <<< bit)

/-- `bitmap_test`: `(bitmap[bit/8] & (1 << (bit%8))) != 0` — on the packed
value this reads exactly bit `bit`. -/
def bitmap_test (bm bit : Nat) : Bool := bm.testBit bit

/-- Read the little-endian `uint32_t` at byte offset `off`, as the
packed-struct casts in the C tools do. -/
def readLE32 (bs off : Nat) : Nat := bs >>> (8 * off) % 4294967296

/-- A C string (argv byte list) packed into a byte string. -/
def natOfBytes : List Nat → Nat
  | [] => 0
  | b :: bs => b % 256 + 256 * natOfBytes bs

/-- `mesafs_superblock_t` (512 packed bytes: nine `uint32_t` fields followed
by 476 reserved bytes). -/
structure Superblock where
  magic : Nat
  version : Nat
  block_size : Nat
  total_blocks : Nat
  free_blocks : Nat
  total_inodes : Nat
  free_inodes : Nat
  root_inode : Nat
  first_data_block : Nat
  reserved : Nat
  deriving Repr, DecidableEq

/-- Encode a superblock record into its 512-byte on-disk image (packed
little-endian fields at byte offsets 0,4,...,32, reserved bytes at 36). -/
def encodeSB (sb : Superblock) : Nat :=
  sb.magic % 4294967296 + (sb.version % 4294967296) <<< 32 +
    (sb.block_size % 4294967296) <<< 64 + (sb.total_blocks % 4294967296) <<< 96 +
    (sb.free_blocks % 4294967296) <<< 128 + (sb.total_inodes % 4294967296) <<< 160 +
    (sb.free_inodes % 4294967296) <<< 192 + (sb.root_inode % 4294967296) <<< 224 +
    (sb.first_data_block % 4294967296) <<< 256 + (bytesTake sb.reserved 476) <<< 288

/-- Decode a superblock record from raw block bytes (the
`(mesafs_superblock_t *)block` cast). -/
def decodeSB (bs : Nat) : Superblock :=
  { magic := readLE32 bs 0
    version := readLE32 bs 4
    block_size := readLE32 bs 8
    total_blocks := readLE32 bs 12
    free_blocks := readLE32 bs 16
    total_inodes := readLE32 bs 20
    free_inodes := readLE32 bs 24
    root_inode := readLE32 bs 28
    first_data_block := readLE32 bs 32
    reserved := bytesTake (bytesDrop bs 36) 476 }

/-- `memcpy(block, &sb, sizeof(sb))`: overlay the 512-byte superblock image
onto the first 512 bytes of a block, keeping the rest. -/
def overlaySB (sb : Superblock) (block : Nat) : Nat :=
  encodeSB sb + (bytesDrop block 512) <<< (8 * 512)

/-- `mesafs_inode_t` (128 packed bytes), modelled as a record; every access in
the tools goes through the `(mesafs_inode_t *)` cast of a table block. -/
structure Inode where
  inode_num : Nat
  type : Nat
  flags : Nat
  links : Nat
  size : Nat
  blocks_used : Nat
  direct_blocks : List Nat
  indirect_block : Nat
  created : Nat
  modified : Nat
  deriving Repr, DecidableEq

/-- A zeroed inode record (`memset(..., 0, sizeof(mesafs_inode_t))`). -/
def emptyInode : Inode :=
  { inode_num := 0, type := 0, flags := 0, links := 0, size := 0, blocks_used := 0
    direct_blocks := List.replicate MESAFS_DIRECT_BLOCKS 0
    indirect_block := 0, created := 0, modified := 0 }

/-- `mesafs_dirent_t` (64 packed bytes: `uint32_t inode`, byte `type`, byte
`name_len`, 58-byte name buffer; the name is a packed byte string). -/
structure Dirent where
  inode : Nat
  type : Nat
  name_len : Nat
  name : Nat
  deriving Repr, DecidableEq

def direntDefault : Dirent := { inode := 0, type := 0, name_len := 0, name := 0 }

/-- Decode one directory entry from its raw 64 bytes (the
`(mesafs_dirent_t *)` cast). -/
def decodeDirent (bs : Nat) : Dirent :=
  { inode := readLE32 bs 0
    type := byteAt bs 4
    name_len := byteAt bs 5
    name := bytesTake (bytesDrop bs 6) 58 }

/-- Encode one directory entry into its 64 packed bytes. -/
def encodeDirent (e : Dirent) : Nat :=
  bytesTake e.inode 4 + (bytesTake e.type 1) <<< 32 + (bytesTake e.name_len 1) <<< 40 +
    (bytesTake e.name 58) <<< 48

/-- Interpret a 4096-byte directory data block as its
`MESAFS_BLOCK_SIZE / sizeof(mesafs_dirent_t)` = 64 entries. -/
def decodeDirents (bs : Nat) : List Dirent :=
  (List.range (MESAFS_BLOCK_SIZE / 64)).map
    (fun i => decodeDirent (bytesTake (bytesDrop bs (64 * i)) 64))

/-- Serialize 64 directory entries back into a directory data block
(entry `i` at byte offset `64*i`). -/
def encodeDirents (es : List Dirent) : Nat :=
  es.foldr (fun e acc => encodeDirent e + acc <<< 512) 0

/-- The volume state: block 0 (superblock + block bitmap), the inode bitmap
block, the inode table (8 blocks of 32 records) and the written data blocks
(most recent write first). -/
structure Volume where
  block0 : Nat
  inodeBitmap : Nat
  inodeTable : List (List Inode)
  dataBlocks : List (Nat × Nat)
  deriving Repr, DecidableEq

/-- Read a data block from the volume (`read_block`); a block that was never
written reads as zero bytes. -/
def readData (v : Volume) (b : Nat) : Nat :=
  (v.dataBlocks.lookup b).getD 0

/-- Write a data block to the volume (`write_block`). -/
def writeData (v : Volume) (b : Nat) (bs : Nat) : Volume :=
  { v with dataBlocks := (b, bs) :: v.dataBlocks }

/-! ## The Volume Initializer (`mesafs-format.c`, lines 419–517) -/

/-- The superblock the formatter builds for a partition of `B` blocks
(lines 419–431): `free_blocks = total_blocks - MESAFS_DATA_START - 1` in
`uint32_t` arithmetic, `free_inodes = total_inodes - 2` with 256 inodes. -/
def mkSuperblock (B : Nat) : Superblock :=
  { magic := MESAFS_MAGIC
    version := 1
    block_size := MESAFS_BLOCK_SIZE
    total_blocks := B % M32
    free_blocks := sub32 B (MESAFS_DATA_START + 1)
    total_inodes := 256
    free_inodes := sub32 256 2
    root_inode := 1
    first_data_block := MESAFS_DATA_START
    reserved := 0 }

/-- The in-memory block bitmap the formatter prepares (lines 457–464): bits
`0 .. MESAFS_DATA_START-1` (metadata) and bit `MESAFS_DATA_START` (root
directory data) set — before the superblock is copied over its first
512 bytes. -/
def formatBlockBitmapPre : Nat :=
  bitmap_set ((List.range MESAFS_DATA_START).foldl bitmap_set 0) MESAFS_DATA_START

/-- Block 0 as the formatter writes it (line 468: `memcpy(block, &sb,
sizeof(sb))` overlays the superblock image onto the bitmap block before the
write). -/
def formatBlock0 (B : Nat) : Nat :=
  overlaySB (mkSuperblock B) formatBlockBitmapPre

/-- The inode bitmap block the formatter writes (lines 475–477): bits 0
(reserved) and 1 (root) set. -/
def formatInodeBitmap : Nat :=
  bitmap_set (bitmap_set 0 0) 1

/-- The root inode the formatter writes at table index 1 (lines 494–500). -/
def rootInode : Inode :=
  { emptyInode with
      inode_num := 1
      type := MESAFS_TYPE_DIR
      flags := MESAFS_FLAG_USED
      links := 1
      size := 0
      blocks_used := 1
      direct_blocks := (List.replicate MESAFS_DIRECT_BLOCKS 0).set 0 MESAFS_DATA_START }

/-- The inode table the formatter writes (lines 483–511): the root inode in
block 2 at index 1, everything else zeroed. -/
def formatInodeTable : List (List Inode) :=
  ((List.replicate 32 emptyInode).set 1 rootInode) ::
    List.replicate (MESAFS_INODE_TABLE_BLOCKS - 1) (List.replicate 32 emptyInode)

/-- The whole format operation (`mesafs-format.c` main, for a partition of `B`
blocks): superblock+bitmap in block 0, inode bitmap, inode table, and a zeroed
root-directory data block at block 10. -/
def format (B : Nat) : Volume :=
  { block0 := formatBlock0 B
    inodeBitmap := formatInodeBitmap
    inodeTable := formatInodeTable
    dataBlocks := [(MESAFS_DATA_START, 0)] }

/-- `total_blocks = part_sectors / 8` (mesafs-format.c line 410). -/
def totalBlocksOfSectors (s : Nat) : Nat := s / 8

/-! ## The File Injector (`inject-file.c` main) -/

/-- The injector's error exits, named as in the spec's error taxonomy (§7). -/
inductive InjErr where
  | invalidMagic
  | fileTooLarge
  | insufficientInodes
  | insufficientBlocks
  | directoryFull
  deriving Repr, DecidableEq

instance {α β : Type} [DecidableEq α] [DecidableEq β] : DecidableEq (Except α β) :=
  fun a b =>
    match a, b with
    | .ok x, .ok y => if h : x = y then .isTrue (by rw [h]) else .isFalse (by simp [h])
    | .error x, .error y => if h : x = y then .isTrue (by rw [h]) else .isFalse (by simp [h])
    | .ok _, .error _ => .isFalse (by simp)
    | .error _, .ok _ => .isFalse (by simp)

/-- First index with `p`, scanning upward from `i` for at most `fuel` steps —
the shape of the injector's linear first-fit loops (structural recursion on
the remaining iteration count). -/
def scanFirstFuel (p : Nat → Bool) (i : Nat) : Nat → Option Nat
  | 0 => none
  | fuel + 1 => if p i then some i else scanFirstFuel p (i + 1) fuel

/-- First index `k` in `[i, bound)` with `p k`, scanning upward. -/
def scanFirst (p : Nat → Bool) (i bound : Nat) : Option Nat :=
  scanFirstFuel p i (bound - i)

/-- The inode-allocation scan (lines 199–206): first clear inode-bitmap bit in
`[2, total_inodes)`. -/
def scanFreeInode (ibm : Nat) (totalInodes : Nat) : Option Nat :=
  scanFirst (fun i => !bitmap_test ibm i) 2 totalInodes

/-- The data-block allocation scan (lines 221–228): walk
`i = MESAFS_DATA_START+1 .. total_blocks-1`, claiming every clear bit (and
setting it in the in-memory bitmap, which aliases block 0) until `needed`
blocks are collected.  Returns the mutated bitmap and the allocated indices. -/
def allocBlocksFuel (bbm : Nat) (i needed : Nat) (acc : List Nat) :
    Nat → Nat × List Nat
  | 0 => (bbm, acc)
  | fuel + 1 =>
    if acc.length < needed then
      if bitmap_test bbm i then allocBlocksFuel bbm (i + 1) needed acc fuel
      else allocBlocksFuel (bitmap_set bbm i) (i + 1) needed (acc ++ [i]) fuel
    else (bbm, acc)

/-- The allocation loop over `i ∈ [i, bound)` (its `bound - i` remaining
iterations as structural fuel). -/
def allocBlocks (bbm : Nat) (i bound needed : Nat) (acc : List Nat) :
    Nat × List Nat :=
  allocBlocksFuel bbm i needed acc (bound - i)

/-- `blocks_needed` (lines 186–187): `(file_size + 4095) / 4096` is computed
in `long` and truncated modulo 2^32 on assignment to the `uint32_t`
`blocks_needed`, then 0 is bumped to 1. -/
def blocksNeeded (L : Nat) : Nat :=
  let n := ((L + MESAFS_BLOCK_SIZE - 1) / MESAFS_BLOCK_SIZE) % M32
  if n = 0 then 1 else n

/-- Filename extraction (lines 181–183): the destination path with a single
leading `'/'` stripped (the C string cuts at the first NUL byte). -/
def extractFilename (destPath : List Nat) : List Nat :=
  let d := destPath.takeWhile (fun b => b != 0)
  if d.getD 0 0 = 47 then d.drop 1 else d

/-- The payload-writing loop (lines 240–250): split the `L`-byte content into
4096-byte chunks (the last one zero-padded) and write them to the allocated
blocks in order. -/
def writePayload (v : Volume) (blocks : List Nat) (content L offset : Nat) : Volume :=
  match blocks with
  | [] => v
  | b :: bs =>
    let chunk := if L - offset > MESAFS_BLOCK_SIZE then MESAFS_BLOCK_SIZE else L - offset
    writePayload (writeData v b (bytesTake (bytesDrop content offset) chunk)) bs content L
      (offset + chunk)

/-- `locate(inode_number)`: the Inode Table Accessor arithmetic of
lines 253–254 — `(MESAFS_INODE_TABLE_START + n / 32, n % 32)`. -/
def locateInode (n : Nat) : Nat × Nat :=
  (MESAFS_INODE_TABLE_START + n / 32, n % 32)

/-- The inode record the injector constructs (lines 260–271): zeroed, then
type/flags/links/size/blocks_used and the allocated direct blocks. -/
def mkFileInode (ino L : Nat) (blocks : List Nat) : Inode :=
  { inode_num := ino
    type := MESAFS_TYPE_FILE
    flags := MESAFS_FLAG_USED
    links := 1
    size := L % M32
    blocks_used := blocks.length
    direct_blocks := (blocks ++ List.replicate MESAFS_DIRECT_BLOCKS 0).take MESAFS_DIRECT_BLOCKS
    indirect_block := 0, created := 0, modified := 0 }

/-- Read-modify-write of the owning inode-table block (lines 253–273). -/
def writeInodeRecord (v : Volume) (ino L : Nat) (blocks : List Nat) : Volume :=
  let loc := locateInode ino
  let bi := loc.1 - MESAFS_INODE_TABLE_START
  { v with inodeTable :=
      v.inodeTable.set bi ((v.inodeTable.getD bi []).set loc.2 (mkFileInode ino L blocks)) }

/-- The root directory's data block number, read back from the on-disk root
inode (lines 277–280: block `MESAFS_INODE_TABLE_START`, record 1, first
direct block). -/
def rootDirBlockNum (v : Volume) : Nat :=
  ((v.inodeTable.getD 0 []).getD 1 emptyInode).direct_blocks.getD 0 0

/-- The free-slot scan over the 64 directory entries (lines 288–297): first
entry with inode 0. -/
def findFreeSlot (es : List Dirent) : Option Nat :=
  scanFirst (fun i => (es.getD i direntDefault).inode == 0) 0 (MESAFS_BLOCK_SIZE / 64)

/-- The directory entry the injector writes (lines 306–310):
`name_len = strlen(filename)` (a `uint8_t`), and
`strncpy(name, filename, MESAFS_MAX_FILENAME)` — at most 56 bytes copied,
zero-padded to 56, the final two name bytes left as they were. -/
def mkInjectDirent (ino : Nat) (filename : List Nat) (old : Dirent) : Dirent :=
  { inode := ino
    type := MESAFS_TYPE_FILE
    name_len := filename.length % 256
    name := bytesTake (natOfBytes filename) MESAFS_MAX_FILENAME +
      (bytesDrop old.name MESAFS_MAX_FILENAME) <<< (8 * MESAFS_MAX_FILENAME) }

/-- The whole inject operation (`inject-file.c` main, after partition
discovery), on a source file of `L` bytes packed into `content`: returns the
error or the `(inode, allocated blocks)` pair, together with the volume as
left on disk (errors after the payload/inode-record writes leave those writes
behind, exactly as the C tool does). -/
def inject (v : Volume) (content L : Nat) (destPath : List Nat) :
    Except InjErr (Nat × List Nat) × Volume :=
  let sb := decodeSB v.block0
  if sb.magic ≠ MESAFS_MAGIC then (.error .invalidMagic, v) else
  let filename := extractFilename destPath
  let needed := blocksNeeded L
  if MESAFS_DIRECT_BLOCKS < needed then (.error .fileTooLarge, v) else
  match scanFreeInode v.inodeBitmap sb.total_inodes with
  | none => (.error .insufficientInodes, v)
  | some ino =>
    let ab := allocBlocks v.block0 (MESAFS_DATA_START + 1) sb.total_blocks needed []
    if ab.2.length < needed then (.error .insufficientBlocks, v) else
    let v2 := writeInodeRecord (writePayload v ab.2 content L 0) ino L ab.2
    let rd := rootDirBlockNum v2
    let entries := decodeDirents (readData v2 rd)
    match findFreeSlot entries with
    | none => (.error .directoryFull, v2)
    | some slot =>
      let e' := mkInjectDirent ino filename (entries.getD slot direntDefault)
      let v3 := writeData v2 rd (encodeDirents (entries.set slot e'))
      let sb' := { sb with
        free_inodes := sub32 sb.free_inodes 1
        free_blocks := sub32 sb.free_blocks ab.2.length }
      (.ok (ino, ab.2),
        { v3 with
            block0 := overlaySB sb' ab.1
            inodeBitmap := bitmap_set v.inodeBitmap ino })

/-- The allocated data blocks of an inject call (`ab.2` above), exposed for
the statements about partial failures. -/
def allocatedBlocks (v : Volume) (L : Nat) : List Nat :=
  (allocBlocks v.block0 (MESAFS_DATA_START + 1) (decodeSB v.block0).total_blocks
    (blocksNeeded L) []).2

/-- The volume after the payload and inode-record writes but before the
directory/bitmap/superblock writes — the on-disk state at the injector's
free-slot scan. -/
def stagedVolume (v : Volume) (content L ino : Nat) : Volume :=
  writeInodeRecord (writePayload v (allocatedBlocks v L) content L 0) ino L
    (allocatedBlocks v L)

/-! ## The Volume Inspector (`mesafs-list.c` main) -/

/-- A stored name as `printf("%s", ...)` shows it: bytes up to the first NUL
(within the 58-byte buffer). -/
def printedName (name : Nat) : List Nat :=
  ((List.range 58).map (fun i => byteAt name i)).takeWhile (fun b => b != 0)

/-- The lister's root-directory enumeration: `none` if the superblock magic is
invalid, otherwise the occupied entries as
`(slot, inode, type, name-as-printed)`. -/
def inspect (v : Volume) : Option (List (Nat × Nat × Nat × List Nat)) :=
  let sb := decodeSB v.block0
  if sb.magic ≠ MESAFS_MAGIC then none else
  let root := (v.inodeTable.getD 0 []).getD sb.root_inode emptyInode
  let entries := decodeDirents (readData v (root.direct_blocks.getD 0 0))
  some ((List.range (MESAFS_BLOCK_SIZE / 64)).filterMap (fun i =>
    let e := entries.getD i direntDefault
    if e.inode ≠ 0 then some (i, e.inode, e.type, printedName e.name) else none))

/-- The inode record at inode number `n`, located via the Inode Table
Accessor arithmetic. -/
def inodeAt (v : Volume) (n : Nat) : Inode :=
  (v.inodeTable.getD ((locateInode n).1 - MESAFS_INODE_TABLE_START) []).getD
    (locateInode n).2 emptyInode

/-- Data blocks concatenated in order (block `j` at byte offset `4096*j`). -/
def concatBlocks : List Nat → Nat
  | [] => 0
  | b :: tl => b + (concatBlocks tl) <<< (8 * MESAFS_BLOCK_SIZE)

/-- Modelled from the spec: reading a file back — its "data blocks, when
concatenated and truncated to that length" (§8 round-trip property; the
repository contains no user-space reader and its kernel-side reader is not
under src/). -/
def fileBytes (v : Volume) (n : Nat) : Nat :=
  bytesTake (concatBlocks ((List.range (inodeAt v n).blocks_used).map
    (fun j => readData v ((inodeAt v n).direct_blocks.getD j 0)))) (inodeAt v n).size

/-! ## Decoding the written superblock -/

theorem decodeSB_overlay_magic (sb : Superblock) (blk : Nat) :
    (decodeSB (overlaySB sb blk)).magic = sb.magic % M32 := by
  simp only [decodeSB, overlaySB, encodeSB, readLE32, bytesTake, bytesDrop, M32,
    Nat.shiftLeft_eq, Nat.shiftRight_eq_div_pow]
  norm_num
  omega

theorem decodeSB_overlay_total_blocks (sb : Superblock) (blk : Nat) :
    (decodeSB (overlaySB sb blk)).total_blocks = sb.total_blocks % M32 := by
  simp only [decodeSB, overlaySB, encodeSB, readLE32, bytesTake, bytesDrop, M32,
    Nat.shiftLeft_eq, Nat.shiftRight_eq_div_pow]
  norm_num
  omega

theorem decodeSB_overlay_free_blocks (sb : Superblock) (blk : Nat) :
    (decodeSB (overlaySB sb blk)).free_blocks = sb.free_blocks % M32 := by
  simp only [decodeSB, overlaySB, encodeSB, readLE32, bytesTake, bytesDrop, M32,
    Nat.shiftLeft_eq, Nat.shiftRight_eq_div_pow]
  norm_num
  omega

theorem decodeSB_overlay_total_inodes (sb : Superblock) (blk : Nat) :
    (decodeSB (overlaySB sb blk)).total_inodes = sb.total_inodes % M32 := by
  simp only [decodeSB, overlaySB, encodeSB, readLE32, bytesTake, bytesDrop, M32,
    Nat.shiftLeft_eq, Nat.shiftRight_eq_div_pow]
  norm_num
  omega

theorem decodeSB_overlay_free_inodes (sb : Superblock) (blk : Nat) :
    (decodeSB (overlaySB sb blk)).free_inodes = sb.free_inodes % M32 := by
  simp only [decodeSB, overlaySB, encodeSB, readLE32, bytesTake, bytesDrop, M32,
    Nat.shiftLeft_eq, Nat.shiftRight_eq_div_pow]
  norm_num
  omega

theorem decodeSB_overlay_root_inode (sb : Superblock) (blk : Nat) :
    (decodeSB (overlaySB sb blk)).root_inode = sb.root_inode % M32 := by
  simp only [decodeSB, overlaySB, encodeSB, readLE32, bytesTake, bytesDrop, M32,
    Nat.shiftLeft_eq, Nat.shiftRight_eq_div_pow]
  norm_num
  omega

theorem format_block0_eq (B : Nat) :
    (format B).block0 = overlaySB (mkSuperblock B) formatBlockBitmapPre := rfl

/-! ## Claim C9: the Inode Table Accessor arithmetic -/

/-- C9: for every inode number `n`, the Inode Table Accessor locates inode `n`
at table block `MESAFS_INODE_TABLE_START + n / 32` with in-block offset
`n % 32`; the located slot's byte address equals the table base plus
`n * 128`, i.e. the arithmetic is exactly 32 record slots of 128 bytes per
4096-byte block. -/
theorem C9_locate_inode (n : Nat) :
    locateInode n = (MESAFS_INODE_TABLE_START + n / 32, n % 32) ∧
    (locateInode n).1 * MESAFS_BLOCK_SIZE + (locateInode n).2 * 128 =
      MESAFS_INODE_TABLE_START * MESAFS_BLOCK_SIZE + n * 128 ∧
    32 = MESAFS_BLOCK_SIZE / 128 := by
  refine ⟨rfl, ?_, rfl⟩
  show (2 + n / 32) * 4096 + n % 32 * 128 = 2 * 4096 + n * 128
  omega

/-! ## Claim C10: free-block underflow on tiny partitions -/

/-- C10: for a partition with fewer than 88 sectors the computed block count
is at most 10, the formatter's `free_blocks = total_blocks - 10 - 1` wraps
modulo 2^32 to `total_blocks + 2^32 - 11` (a value within 11 of 2^32), and
the superblock is written to block 0 with that wrapped count (the format does
not fail). -/
theorem C10_free_blocks_underflow (s : Nat) (h : s < 88) :
    (mkSuperblock (totalBlocksOfSectors s)).free_blocks =
      totalBlocksOfSectors s + (4294967296 - 11) ∧
    4294967296 - 11 ≤ (mkSuperblock (totalBlocksOfSectors s)).free_blocks ∧
    (decodeSB (format (totalBlocksOfSectors s)).block0).free_blocks =
      totalBlocksOfSectors s + (4294967296 - 11) := by
  have hs : s / 8 ≤ 10 := by omega
  have h1 : (mkSuperblock (totalBlocksOfSectors s)).free_blocks =
      totalBlocksOfSectors s + (4294967296 - 11) := by
    simp only [mkSuperblock, totalBlocksOfSectors, sub32, M32, MESAFS_DATA_START]
    omega
  refine ⟨h1, by omega, ?_⟩
  rw [format_block0_eq, decodeSB_overlay_free_blocks, h1]
  simp only [M32, totalBlocksOfSectors]
  omega

/-- Witness for C10 at a concrete 80-sector partition. -/
theorem C10_free_blocks_underflow_witness :
    80 < 88 ∧
    (mkSuperblock (totalBlocksOfSectors 80)).free_blocks = 4294967295 ∧
    (decodeSB (format (totalBlocksOfSectors 80)).block0).free_blocks = 4294967295 := by
  have h := C10_free_blocks_underflow 80 (by omega)
  exact ⟨by omega, h.1, h.2.2⟩

/-! ## Claim C1: the freshly formatted volume -/

theorem formatBlockBitmapPre_eq : formatBlockBitmapPre = 2047 := by decide

theorem formatInodeBitmap_eq : formatInodeBitmap = 3 := by decide

theorem encodeSB_mk_lt (B : Nat) : encodeSB (mkSuperblock B) < 2 ^ 4096 := by
  simp only [encodeSB, mkSuperblock, bytesTake, Nat.shiftLeft_eq]
  norm_num
  omega

theorem format_block0_val (B : Nat) : (format B).block0 = encodeSB (mkSuperblock B) := by
  rw [format_block0_eq, formatBlockBitmapPre_eq]
  simp only [overlaySB, bytesDrop, Nat.shiftRight_eq_div_pow, Nat.shiftLeft_eq]
  norm_num

/-- C1 as stated is false: on the freshly formatted volume the block-bitmap
bits 0–10 are *not* all set on disk — the formatter copies the superblock
image over the first 512 bytes of block 0 (which hold bits 0–4095), so bit 1
of the written block 0 is the second-lowest bit of the magic constant, which
is clear.  Counterexample at `B = 64`. -/
theorem C1_counterexample :
    ¬ ((decodeSB (format 64).block0).magic = MESAFS_MAGIC ∧
       (decodeSB (format 64).block0).free_blocks = 64 - 11 ∧
       (decodeSB (format 64).block0).free_inodes = 254 ∧
       (∀ i, i ≤ 10 → bitmap_test (format 64).block0 i = true) ∧
       (∀ i, 10 < i → bitmap_test (format 64).block0 i = false) ∧
       (∀ i, i ≤ 1 → bitmap_test (format 64).inodeBitmap i = true) ∧
       (∀ i, 2 ≤ i → bitmap_test (format 64).inodeBitmap i = false) ∧
       (∀ e ∈ decodeDirents (readData (format 64) 10), e.inode = 0)) := by
  intro h
  have h1 := h.2.2.2.1 1 (by omega)
  have h2 : bitmap_test (format 64).block0 1 = false := by decide
  rw [h1] at h2
  cases h2

/-- C1 amended: the superblock decoded back from the written block 0 has the
magic constant, `free_blocks = B - 11` and `free_inodes = 254`; the
*in-memory* block bitmap prepared by the formatter has exactly bits 0–10 set;
but on disk the first 512 bytes of block 0 are the superblock image (the
bitmap bits 0–4095 live in the overlaid region), and every byte of block 0
beyond the 512-byte superblock image is zero.  The inode-bitmap and
root-directory parts hold as claimed: inode-bitmap bits 0 and 1 are set and
no others, and every entry of the root directory block is free (inode 0). -/
theorem C1_format_amended (B : Nat) (hB : 11 ≤ B) (hB2 : B < 4294967296) :
    (decodeSB (format B).block0).magic = MESAFS_MAGIC ∧
    (decodeSB (format B).block0).free_blocks = B - 11 ∧
    (decodeSB (format B).block0).free_inodes = 254 ∧
    (∀ i, i ≤ 10 → bitmap_test formatBlockBitmapPre i = true) ∧
    (∀ i, 10 < i → bitmap_test formatBlockBitmapPre i = false) ∧
    bytesTake (format B).block0 512 = encodeSB (mkSuperblock B) ∧
    bytesDrop (format B).block0 512 = 0 ∧
    (∀ i, i ≤ 1 → bitmap_test (format B).inodeBitmap i = true) ∧
    (∀ i, 2 ≤ i → bitmap_test (format B).inodeBitmap i = false) ∧
    (∀ e ∈ decodeDirents (readData (format B) 10), e.inode = 0) := by
  have hlt := encodeSB_mk_lt B
  refine ⟨?_, ?_, ?_, ?_, ?_, ?_, ?_, ?_, ?_, ?_⟩
  · rw [format_block0_eq, decodeSB_overlay_magic]
    rfl
  · rw [format_block0_eq, decodeSB_overlay_free_blocks]
    simp only [mkSuperblock, sub32, M32, MESAFS_DATA_START]
    omega
  · rw [format_block0_eq, decodeSB_overlay_free_inodes]
    rfl
  · intro i hi
    rw [formatBlockBitmapPre_eq]
    interval_cases i <;> decide
  · intro i hi
    rw [formatBlockBitmapPre_eq]
    exact Nat.testBit_eq_false_of_lt
      (lt_of_lt_of_le (by norm_num) (Nat.pow_le_pow_right (by norm_num) hi))
  · rw [format_block0_val]
    simp only [bytesTake]
    have h2 : (256 : Nat) ^ 512 = 2 ^ 4096 := by norm_num
    rw [h2]
    exact Nat.mod_eq_of_lt hlt
  · rw [format_block0_val]
    simp only [bytesDrop, Nat.shiftRight_eq_div_pow]
    norm_num
    omega
  · intro i hi
    rw [show (format B).inodeBitmap = formatInodeBitmap from rfl, formatInodeBitmap_eq]
    interval_cases i <;> decide
  · intro i hi
    rw [show (format B).inodeBitmap = formatInodeBitmap from rfl, formatInodeBitmap_eq]
    exact Nat.testBit_eq_false_of_lt
      (lt_of_lt_of_le (by norm_num) (Nat.pow_le_pow_right (by norm_num) hi))
  · rw [show readData (format B) 10 = 0 from rfl]
    decide

/-- Witness for the amended C1 at `B = 64`. -/
theorem C1_format_amended_witness :
    11 ≤ 64 ∧ 64 < 4294967296 ∧
    ((decodeSB (format 64).block0).magic = MESAFS_MAGIC ∧
     (decodeSB (format 64).block0).free_blocks = 64 - 11 ∧
     (decodeSB (format 64).block0).free_inodes = 254) := by
  have h := C1_format_amended 64 (by omega) (by omega)
  exact ⟨by omega, by omega, h.1, h.2.1, h.2.2.1⟩

/-! ## Claim C7: oversized files are rejected without any mutation -/

/-- C7 as stated is false of the program: a file of exactly `2^44` bytes is
far beyond the claimed `10 * 4096`-byte cap, yet its block count
`(2^44 + 4095) / 4096 = 2^32` truncates to 0 in the `uint32_t`
`blocks_needed`, is bumped to 1, passes the `> 10` check, and the injector
accepts the file and mutates the volume (the inode's recorded size also
wraps to 0). -/
theorem C7_counterexample :
    MESAFS_DIRECT_BLOCKS * MESAFS_BLOCK_SIZE < 2 ^ 44 ∧
    blocksNeeded (2 ^ 44) = 1 ∧
    (inject (format 64) 0 (2 ^ 44) [47, 97, 0]).1 ≠ .error .fileTooLarge ∧
    (inject (format 64) 0 (2 ^ 44) [47, 97, 0]).1 = .ok (2, [11]) ∧
    (inject (format 64) 0 (2 ^ 44) [47, 97, 0]).2 ≠ format 64 ∧
    (inodeAt (inject (format 64) 0 (2 ^ 44) [47, 97, 0]).2 2).size = 0 := by
  refine ⟨by decide, by decide, by decide, by decide, by decide, by decide⟩

/-- C7 amended: the injector rejects with `FileTooLarge` exactly when the
truncated block count exceeds 10, and then nothing on disk is touched.  In
particular every file longer than `10 * 4096` bytes whose untruncated block
count `(L + 4095) / 4096` still fits a `uint32` is rejected with the volume
returned unchanged; sizes whose block count wraps modulo 2^32 to at most 10
escape the check (see the counterexample). -/
theorem C7_file_too_large_amended (v : Volume) (content L : Nat) (destPath : List Nat)
    (hm : (decodeSB v.block0).magic = MESAFS_MAGIC)
    (hL : MESAFS_DIRECT_BLOCKS * MESAFS_BLOCK_SIZE < L)
    (hW : (L + MESAFS_BLOCK_SIZE - 1) / MESAFS_BLOCK_SIZE < 4294967296) :
    inject v content L destPath = (.error .fileTooLarge, v) := by
  have hn : MESAFS_DIRECT_BLOCKS < blocksNeeded L := by
    simp only [MESAFS_DIRECT_BLOCKS, MESAFS_BLOCK_SIZE] at hL hW
    simp only [blocksNeeded, MESAFS_DIRECT_BLOCKS, MESAFS_BLOCK_SIZE, M32]
    split <;> omega
  simp only [inject, hm]
  rw [if_neg (by simp : ¬(MESAFS_MAGIC ≠ MESAFS_MAGIC)), if_pos hn]

/-- Witness for the amended C7: a 40961-byte file on a fresh 64-block
volume. -/
theorem C7_file_too_large_amended_witness :
    ((decodeSB (format 64).block0).magic = MESAFS_MAGIC ∧
     MESAFS_DIRECT_BLOCKS * MESAFS_BLOCK_SIZE < 40961 ∧
     (40961 + MESAFS_BLOCK_SIZE - 1) / MESAFS_BLOCK_SIZE < 4294967296) ∧
    inject (format 64) 0 40961 [47, 97] = (.error .fileTooLarge, format 64) :=
  ⟨⟨by decide, by decide, by decide⟩,
   C7_file_too_large_amended (format 64) 0 40961 [47, 97] (by decide) (by decide) (by decide)⟩

/-! ## Claim C4: failure after inode allocation (InsufficientBlocks) -/

/-- C4 as stated is false: when data-block allocation fails after inode
allocation succeeded, the injector exits *before any disk write*, so the
on-disk inode bitmap does **not** keep the allocated bit and the on-disk
free-inode counter is **not** decremented (the mutations existed only in the
process's memory).  Concrete scenario: fresh 12-block volume, 4097-byte file
(needs 2 blocks, only block 11 is available); inode 2 was allocated in
memory, yet after the failed call bit 2 of the on-disk inode bitmap is still
clear and the on-disk free-inode count is still 254. -/
theorem C4_counterexample :
    scanFreeInode (format 12).inodeBitmap (decodeSB (format 12).block0).total_inodes = some 2 ∧
    inject (format 12) 0 4097 [47, 97] = (.error .insufficientBlocks, format 12) ∧
    ¬ (bitmap_test (inject (format 12) 0 4097 [47, 97]).2.inodeBitmap 2 = true ∧
       (decodeSB (inject (format 12) 0 4097 [47, 97]).2.block0).free_inodes = 253) := by
  refine ⟨by decide, by decide, ?_⟩
  intro h
  have h2 : bitmap_test (inject (format 12) 0 4097 [47, 97]).2.inodeBitmap 2 = false := by decide
  rw [h.1] at h2
  cases h2

/-- C4 amended: if the superblock is valid, the file fits the direct-block
limit, inode allocation succeeds and the data-block scan then comes up short,
the injector returns `InsufficientBlocks` with the volume exactly as it was:
nothing is persisted, so no inode is leaked on disk (the leak exists only in
the exiting process's memory). -/
theorem C4_insufficient_blocks_amended (v : Volume) (content L : Nat) (destPath : List Nat)
    (ino : Nat)
    (hm : (decodeSB v.block0).magic = MESAFS_MAGIC)
    (hn : blocksNeeded L ≤ MESAFS_DIRECT_BLOCKS)
    (hi : scanFreeInode v.inodeBitmap (decodeSB v.block0).total_inodes = some ino)
    (hb : (allocatedBlocks v L).length < blocksNeeded L) :
    inject v content L destPath = (.error .insufficientBlocks, v) := by
  have hb' : (allocBlocks v.block0 (MESAFS_DATA_START + 1) (decodeSB v.block0).total_blocks
      (blocksNeeded L) []).2.length < blocksNeeded L := hb
  simp only [inject, hm, hi]
  rw [if_neg (by simp : ¬(MESAFS_MAGIC ≠ MESAFS_MAGIC)),
    if_neg (by omega : ¬(MESAFS_DIRECT_BLOCKS < blocksNeeded L)), if_pos hb']

/-- Witness for the amended C4: fresh 12-block volume, 4097-byte file. -/
theorem C4_insufficient_blocks_amended_witness :
    (decodeSB (format 12).block0).magic = MESAFS_MAGIC ∧
    blocksNeeded 4097 ≤ MESAFS_DIRECT_BLOCKS ∧
    scanFreeInode (format 12).inodeBitmap (decodeSB (format 12).block0).total_inodes = some 2 ∧
    (allocatedBlocks (format 12) 4097).length < blocksNeeded 4097 ∧
    inject (format 12) 0 4097 [47, 97] = (.error .insufficientBlocks, format 12) := by
  refine ⟨by decide, by decide, by decide, by decide,
    C4_insufficient_blocks_amended (format 12) 0 4097 [47, 97] 2 (by decide) (by decide)
      (by decide) (by decide)⟩

/-! ## Scan lemmas -/

theorem scanFirstFuel_some (p : Nat → Bool) (fuel : Nat) :
    ∀ i k, scanFirstFuel p i fuel = some k → i ≤ k ∧ k < i + fuel ∧ p k = true := by
  induction fuel with
  | zero => intro i k h; cases h
  | succ f ih =>
    intro i k h
    simp only [scanFirstFuel] at h
    by_cases hp : p i
    · simp only [hp, if_true] at h
      cases h
      exact ⟨le_refl _, by omega, hp⟩
    · simp only [hp, if_false] at h
      have := ih (i + 1) k h
      exact ⟨by omega, by omega, this.2.2⟩

theorem scanFirst_some (p : Nat → Bool) (i bound k : Nat)
    (h : scanFirst p i bound = some k) : i ≤ k ∧ k < bound ∧ p k = true := by
  have h2 := scanFirstFuel_some p (bound - i) i k h
  by_cases hib : i < bound
  · exact ⟨h2.1, by omega, h2.2.2⟩
  · rw [scanFirst, show bound - i = 0 by omega] at h
    cases h

theorem scanFreeInode_some (ibm totalInodes k : Nat)
    (h : scanFreeInode ibm totalInodes = some k) :
    2 ≤ k ∧ k < totalInodes ∧ bitmap_test ibm k = false := by
  have := scanFirst_some _ 2 totalInodes k h
  exact ⟨this.1, this.2.1, by simpa using this.2.2⟩

theorem findFreeSlot_some (es : List Dirent) (k : Nat)
    (h : findFreeSlot es = some k) :
    k < 64 ∧ (es.getD k direntDefault).inode = 0 := by
  have := scanFirst_some _ 0 (MESAFS_BLOCK_SIZE / 64) k h
  refine ⟨this.2.1, by simpa using this.2.2⟩

/-! ## Unfolding the injector -/

theorem allocatedBlocks_def (v : Volume) (L : Nat) :
    (allocBlocks v.block0 (MESAFS_DATA_START + 1) (decodeSB v.block0).total_blocks
      (blocksNeeded L) []).2 = allocatedBlocks v L := rfl

theorem stagedVolume_def (v : Volume) (content L ino : Nat) :
    writeInodeRecord (writePayload v (allocatedBlocks v L) content L 0) ino L
      (allocatedBlocks v L) = stagedVolume v content L ino := rfl

/-- Characterization of the `DirectoryFull` exit: the payload blocks and the
inode record are already on disk (the returned volume is the staged volume),
while block 0 (superblock + block bitmap) and the inode bitmap were never
rewritten. -/
theorem inject_dir_full (v : Volume) (content L : Nat) (destPath : List Nat) (ino : Nat)
    (hm : (decodeSB v.block0).magic = MESAFS_MAGIC)
    (hn : blocksNeeded L ≤ MESAFS_DIRECT_BLOCKS)
    (hi : scanFreeInode v.inodeBitmap (decodeSB v.block0).total_inodes = some ino)
    (hb : blocksNeeded L ≤ (allocatedBlocks v L).length)
    (hf : findFreeSlot (decodeDirents (readData (stagedVolume v content L ino)
      (rootDirBlockNum (stagedVolume v content L ino)))) = none) :
    inject v content L destPath = (.error .directoryFull, stagedVolume v content L ino) := by
  simp only [inject, hi]
  rw [if_neg (by simp [hm] : ¬((decodeSB v.block0).magic ≠ MESAFS_MAGIC)),
    if_neg (by omega : ¬(MESAFS_DIRECT_BLOCKS < blocksNeeded L))]
  simp only [allocatedBlocks_def, stagedVolume_def]
  rw [if_neg (by omega : ¬((allocatedBlocks v L).length < blocksNeeded L))]
  simp only [hf]

/-- Characterization of a successful injection: the final volume is the
staged volume plus the directory-entry write, with block 0 rebuilt from the
updated superblock overlaid on the scan-mutated bitmap, and the inode bitmap
with the new inode's bit set. -/
theorem inject_ok (v : Volume) (content L : Nat) (destPath : List Nat) (ino slot : Nat)
    (hm : (decodeSB v.block0).magic = MESAFS_MAGIC)
    (hn : blocksNeeded L ≤ MESAFS_DIRECT_BLOCKS)
    (hi : scanFreeInode v.inodeBitmap (decodeSB v.block0).total_inodes = some ino)
    (hb : blocksNeeded L ≤ (allocatedBlocks v L).length)
    (hs : findFreeSlot (decodeDirents (readData (stagedVolume v content L ino)
      (rootDirBlockNum (stagedVolume v content L ino)))) = some slot) :
    inject v content L destPath =
      (.ok (ino, allocatedBlocks v L),
       { block0 := overlaySB { decodeSB v.block0 with
             free_inodes := sub32 (decodeSB v.block0).free_inodes 1
             free_blocks := sub32 (decodeSB v.block0).free_blocks (allocatedBlocks v L).length }
           (allocBlocks v.block0 (MESAFS_DATA_START + 1) (decodeSB v.block0).total_blocks
             (blocksNeeded L) []).1
         inodeBitmap := bitmap_set v.inodeBitmap ino
         inodeTable := (stagedVolume v content L ino).inodeTable
         dataBlocks := (rootDirBlockNum (stagedVolume v content L ino),
           encodeDirents ((decodeDirents (readData (stagedVolume v content L ino)
               (rootDirBlockNum (stagedVolume v content L ino)))).set slot
             (mkInjectDirent ino (extractFilename destPath)
               ((decodeDirents (readData (stagedVolume v content L ino)
                   (rootDirBlockNum (stagedVolume v content L ino)))).getD slot direntDefault)))) ::
           (stagedVolume v content L ino).dataBlocks }) := by
  simp only [inject, hi]
  rw [if_neg (by simp [hm] : ¬((decodeSB v.block0).magic ≠ MESAFS_MAGIC)),
    if_neg (by omega : ¬(MESAFS_DIRECT_BLOCKS < blocksNeeded L))]
  simp only [allocatedBlocks_def, stagedVolume_def]
  rw [if_neg (by omega : ¬((allocatedBlocks v L).length < blocksNeeded L))]
  simp only [hs]
  rfl

/-! ## Claim C6: injecting into a full root directory -/

theorem writePayload_block0 (bs : List Nat) :
    ∀ (v : Volume) (content L o : Nat), (writePayload v bs content L o).block0 = v.block0 := by
  induction bs with
  | nil => intro v content L o; rfl
  | cons b tl ih => intro v content L o; exact ih _ content L _

theorem writePayload_inodeBitmap (bs : List Nat) :
    ∀ (v : Volume) (content L o : Nat),
      (writePayload v bs content L o).inodeBitmap = v.inodeBitmap := by
  induction bs with
  | nil => intro v content L o; rfl
  | cons b tl ih => intro v content L o; exact ih _ content L _

theorem writePayload_inodeTable (bs : List Nat) :
    ∀ (v : Volume) (content L o : Nat),
      (writePayload v bs content L o).inodeTable = v.inodeTable := by
  induction bs with
  | nil => intro v content L o; rfl
  | cons b tl ih => intro v content L o; exact ih _ content L _

theorem stagedVolume_block0 (v : Volume) (content L ino : Nat) :
    (stagedVolume v content L ino).block0 = v.block0 :=
  writePayload_block0 _ v content L 0

theorem stagedVolume_inodeBitmap (v : Volume) (content L ino : Nat) :
    (stagedVolume v content L ino).inodeBitmap = v.inodeBitmap :=
  writePayload_inodeBitmap _ v content L 0

theorem stagedVolume_inodeTable (v : Volume) (content L ino : Nat) :
    (stagedVolume v content L ino).inodeTable =
      v.inodeTable.set ((locateInode ino).1 - MESAFS_INODE_TABLE_START)
        ((v.inodeTable.getD ((locateInode ino).1 - MESAFS_INODE_TABLE_START) []).set
          (locateInode ino).2 (mkFileInode ino L (allocatedBlocks v L))) := by
  show (writeInodeRecord _ _ _ _).inodeTable = _
  simp only [writeInodeRecord, writePayload_inodeTable]

/-- A root directory block in which all 64 slots are occupied (inode 5). -/
def fullDirVolume : Volume :=
  { format 64 with
      dataBlocks := [(MESAFS_DATA_START,
        encodeDirents (List.replicate 64
          { inode := 5, type := 1, name_len := 1, name := 97 }))] }

/-- C6 as stated is false: with every root-directory slot occupied, the
injector does fail with `DirectoryFull`, but by then it has already written
the payload to the allocated data block and written the new inode record
(flags = used) into the on-disk inode table — on-disk state *does* record the
attempted allocation.  (Only the bitmaps, counters and directory stay
untouched.)  Concrete input: a fresh 64-block volume whose root directory
block is fully occupied, injecting one byte. -/
theorem C6_counterexample :
    (inject fullDirVolume 7 1 [47, 99]).1 = .error .directoryFull ∧
    (inodeAt (inject fullDirVolume 7 1 [47, 99]).2 2).flags = MESAFS_FLAG_USED ∧
    (inodeAt fullDirVolume 2).flags = 0 ∧
    readData (inject fullDirVolume 7 1 [47, 99]).2 11 = 7 ∧
    readData fullDirVolume 11 = 0 ∧
    (inject fullDirVolume 7 1 [47, 99]).2 ≠ fullDirVolume := by
  refine ⟨by decide, by decide, by decide, by decide, by decide, by decide⟩

/-- C6 amended: with a valid superblock, a fitting file, successful inode and
block allocation and a root directory with no free slot, the injector fails
with `DirectoryFull`; block 0 (superblock and block bitmap) and the inode
bitmap are exactly as before the call (no counter or bitmap mutation is
persisted), but the payload writes and the new inode record (flags = used)
are already on disk. -/
theorem C6_directory_full_amended (v : Volume) (content L : Nat) (destPath : List Nat)
    (ino : Nat)
    (hm : (decodeSB v.block0).magic = MESAFS_MAGIC)
    (hn : blocksNeeded L ≤ MESAFS_DIRECT_BLOCKS)
    (hi : scanFreeInode v.inodeBitmap (decodeSB v.block0).total_inodes = some ino)
    (hb : blocksNeeded L ≤ (allocatedBlocks v L).length)
    (hf : findFreeSlot (decodeDirents (readData (stagedVolume v content L ino)
      (rootDirBlockNum (stagedVolume v content L ino)))) = none) :
    (inject v content L destPath).1 = .error .directoryFull ∧
    (inject v content L destPath).2.block0 = v.block0 ∧
    (inject v content L destPath).2.inodeBitmap = v.inodeBitmap ∧
    (inject v content L destPath).2.dataBlocks =
      (writePayload v (allocatedBlocks v L) content L 0).dataBlocks ∧
    (inject v content L destPath).2.inodeTable =
      v.inodeTable.set ((locateInode ino).1 - MESAFS_INODE_TABLE_START)
        ((v.inodeTable.getD ((locateInode ino).1 - MESAFS_INODE_TABLE_START) []).set
          (locateInode ino).2 (mkFileInode ino L (allocatedBlocks v L))) ∧
    (mkFileInode ino L (allocatedBlocks v L)).flags = MESAFS_FLAG_USED := by
  rw [inject_dir_full v content L destPath ino hm hn hi hb hf]
  exact ⟨rfl, stagedVolume_block0 v content L ino, stagedVolume_inodeBitmap v content L ino,
    rfl, stagedVolume_inodeTable v content L ino, rfl⟩

/-- Witness for the amended C6 at the concrete full-directory volume. -/
theorem C6_directory_full_amended_witness :
    ((decodeSB fullDirVolume.block0).magic = MESAFS_MAGIC ∧
     blocksNeeded 1 ≤ MESAFS_DIRECT_BLOCKS ∧
     scanFreeInode fullDirVolume.inodeBitmap (decodeSB fullDirVolume.block0).total_inodes =
       some 2 ∧
     blocksNeeded 1 ≤ (allocatedBlocks fullDirVolume 1).length ∧
     findFreeSlot (decodeDirents (readData (stagedVolume fullDirVolume 7 1 2)
       (rootDirBlockNum (stagedVolume fullDirVolume 7 1 2)))) = none) ∧
    (inject fullDirVolume 7 1 [47, 99]).1 = .error .directoryFull ∧
    (inject fullDirVolume 7 1 [47, 99]).2.block0 = fullDirVolume.block0 ∧
    (inject fullDirVolume 7 1 [47, 99]).2.inodeBitmap = fullDirVolume.inodeBitmap := by
  have h := C6_directory_full_amended fullDirVolume 7 1 [47, 99] 2 (by decide) (by decide)
    (by decide) (by decide) (by decide)
  exact ⟨⟨by decide, by decide, by decide, by decide, by decide⟩, h.1, h.2.1, h.2.2.1⟩

/-! ## Directory-entry codec lemmas -/

theorem encodeDirents_cons (e : Dirent) (tl : List Dirent) :
    encodeDirents (e :: tl) = encodeDirent e + (encodeDirents tl) <<< 512 := rfl

theorem encodeDirent_lt (e : Dirent) : encodeDirent e < 2 ^ 512 := by
  simp only [encodeDirent, bytesTake, Nat.shiftLeft_eq]
  norm_num
  omega

theorem decodeDirent_encodeDirent (e : Dirent) (hi : e.inode < 4294967296)
    (ht : e.type < 256) (hl : e.name_len < 256) (hn : e.name < 256 ^ 58) :
    decodeDirent (encodeDirent e) = e := by
  cases e with
  | mk i t l n =>
    simp only [decodeDirent, encodeDirent, readLE32, byteAt, bytesTake, bytesDrop,
      Nat.shiftLeft_eq, Nat.shiftRight_eq_div_pow, Dirent.mk.injEq] at *
    norm_num
    refine ⟨by omega, by omega, by omega, by omega⟩

theorem bytesDrop_bytesDrop (n a b : Nat) :
    bytesDrop (bytesDrop n a) b = bytesDrop n (a + b) := by
  simp only [bytesDrop, Nat.mul_add, Nat.shiftRight_add]

theorem encodeDirents_bytesDrop (i : Nat) :
    ∀ es : List Dirent, bytesDrop (encodeDirents es) (64 * i) = encodeDirents (es.drop i) := by
  induction i with
  | zero => intro es; simp [bytesDrop]
  | succ j ih =>
    intro es
    cases es with
    | nil => simp [encodeDirents, bytesDrop]
    | cons e tl =>
      have h1 : bytesDrop (encodeDirents (e :: tl)) 64 = encodeDirents tl := by
        have hlt := encodeDirent_lt e
        rw [encodeDirents_cons]
        simp only [bytesDrop, Nat.shiftLeft_eq, Nat.shiftRight_eq_div_pow]
        norm_num
        omega
      rw [show 64 * (j + 1) = 64 + 64 * j by ring, ← bytesDrop_bytesDrop, h1, ih tl]
      rfl

theorem bytesTake_encodeDirents_cons (e : Dirent) (tl : List Dirent) :
    bytesTake (encodeDirents (e :: tl)) 64 = encodeDirent e := by
  have hlt := encodeDirent_lt e
  rw [encodeDirents_cons]
  simp only [bytesTake, Nat.shiftLeft_eq]
  norm_num
  omega

theorem decodeDirents_getD (bs k : Nat) (hk : k < 64) :
    (decodeDirents bs).getD k direntDefault =
      decodeDirent (bytesTake (bytesDrop bs (64 * k)) 64) := by
  rw [decodeDirents, List.getD_eq_getElem _ _ (by simpa using hk)]
  simp

theorem decodeDirents_encodeDirents_getD (es : List Dirent) (k : Nat) (h64 : es.length = 64)
    (hk : k < 64) (hi : (es.getD k direntDefault).inode < 4294967296)
    (ht : (es.getD k direntDefault).type < 256)
    (hl : (es.getD k direntDefault).name_len < 256)
    (hn : (es.getD k direntDefault).name < 256 ^ 58) :
    (decodeDirents (encodeDirents es)).getD k direntDefault = es.getD k direntDefault := by
  have hk' : k < es.length := by omega
  rw [decodeDirents_getD _ k hk, encodeDirents_bytesDrop, List.drop_eq_getElem_cons hk',
    bytesTake_encodeDirents_cons, List.getD_eq_getElem es direntDefault hk'] at *
  exact decodeDirent_encodeDirent _ hi ht hl hn

/-- Every decoded directory entry is byte-bounded by construction. -/
theorem decodeDirent_bounds (bs : Nat) :
    (decodeDirent bs).inode < 4294967296 ∧ (decodeDirent bs).type < 256 ∧
    (decodeDirent bs).name_len < 256 ∧ (decodeDirent bs).name < 256 ^ 58 := by
  simp only [decodeDirent, readLE32, byteAt, bytesTake, bytesDrop]
  norm_num
  omega

theorem decodeDirents_getD_bounds (bs k : Nat) (hk : k < 64) :
    ((decodeDirents bs).getD k direntDefault).inode < 4294967296 ∧
    ((decodeDirents bs).getD k direntDefault).type < 256 ∧
    ((decodeDirents bs).getD k direntDefault).name_len < 256 ∧
    ((decodeDirents bs).getD k direntDefault).name < 256 ^ 58 := by
  rw [decodeDirents_getD bs k hk]
  exact decodeDirent_bounds _

theorem mkInjectDirent_bounds (ino : Nat) (filename : List Nat) (old : Dirent)
    (hino : ino < 4294967296) (hold : old.name < 256 ^ 58) :
    (mkInjectDirent ino filename old).inode < 4294967296 ∧
    (mkInjectDirent ino filename old).type < 256 ∧
    (mkInjectDirent ino filename old).name_len < 256 ∧
    (mkInjectDirent ino filename old).name < 256 ^ 58 := by
  simp only [mkInjectDirent, MESAFS_TYPE_FILE, MESAFS_MAX_FILENAME, bytesTake, bytesDrop,
    Nat.shiftLeft_eq, Nat.shiftRight_eq_div_pow]
  norm_num at *
  omega

/-! ## The directory entry written by a successful injection -/

theorem decodeDirents_length (bs : Nat) : (decodeDirents bs).length = 64 := by
  simp [decodeDirents, MESAFS_BLOCK_SIZE]

theorem mkInjectDirent_name_take (ino : Nat) (f : List Nat) (old : Dirent) :
    bytesTake (mkInjectDirent ino f old).name MESAFS_MAX_FILENAME =
      bytesTake (natOfBytes f) MESAFS_MAX_FILENAME := by
  simp only [mkInjectDirent, bytesTake, bytesDrop, MESAFS_MAX_FILENAME, Nat.shiftLeft_eq]
  norm_num

theorem mkInjectDirent_name_len (ino : Nat) (f : List Nat) (old : Dirent) :
    (mkInjectDirent ino f old).name_len = f.length % 256 := rfl

theorem readData_mixin (v : Volume) (b bm ib : Nat) :
    readData { v with block0 := bm, inodeBitmap := ib } b = readData v b := rfl

theorem readData_writeData_self (v : Volume) (b x : Nat) :
    readData (writeData v b x) b = x := by
  simp [readData, writeData, List.lookup]

theorem lookup_cons_ne (a x b : Nat) (l : List (Nat × Nat)) (h : a ≠ b) :
    List.lookup b ((a, x) :: l) = List.lookup b l := by
  simp only [List.lookup, beq_eq_false_iff_ne.mpr (fun he => h he.symm)]

/-! ## Projections of a successful injection -/

theorem inject_ok_inodeTable (v : Volume) (content L : Nat) (destPath : List Nat)
    (ino slot : Nat)
    (hm : (decodeSB v.block0).magic = MESAFS_MAGIC)
    (hn : blocksNeeded L ≤ MESAFS_DIRECT_BLOCKS)
    (hi : scanFreeInode v.inodeBitmap (decodeSB v.block0).total_inodes = some ino)
    (hb : blocksNeeded L ≤ (allocatedBlocks v L).length)
    (hs : findFreeSlot (decodeDirents (readData (stagedVolume v content L ino)
      (rootDirBlockNum (stagedVolume v content L ino)))) = some slot) :
    (inject v content L destPath).2.inodeTable = (stagedVolume v content L ino).inodeTable := by
  rw [inject_ok v content L destPath ino slot hm hn hi hb hs]

theorem inject_ok_readDir (v : Volume) (content L : Nat) (destPath : List Nat)
    (ino slot : Nat)
    (hm : (decodeSB v.block0).magic = MESAFS_MAGIC)
    (hn : blocksNeeded L ≤ MESAFS_DIRECT_BLOCKS)
    (hi : scanFreeInode v.inodeBitmap (decodeSB v.block0).total_inodes = some ino)
    (hb : blocksNeeded L ≤ (allocatedBlocks v L).length)
    (hs : findFreeSlot (decodeDirents (readData (stagedVolume v content L ino)
      (rootDirBlockNum (stagedVolume v content L ino)))) = some slot) :
    readData (inject v content L destPath).2 (rootDirBlockNum (stagedVolume v content L ino)) =
      encodeDirents ((decodeDirents (readData (stagedVolume v content L ino)
          (rootDirBlockNum (stagedVolume v content L ino)))).set slot
        (mkInjectDirent ino (extractFilename destPath)
          ((decodeDirents (readData (stagedVolume v content L ino)
              (rootDirBlockNum (stagedVolume v content L ino)))).getD slot direntDefault))) := by
  rw [inject_ok v content L destPath ino slot hm hn hi hb hs]
  simp [readData, List.lookup]

theorem inject_ok_readData_ne (v : Volume) (content L : Nat) (destPath : List Nat)
    (ino slot b : Nat)
    (hm : (decodeSB v.block0).magic = MESAFS_MAGIC)
    (hn : blocksNeeded L ≤ MESAFS_DIRECT_BLOCKS)
    (hi : scanFreeInode v.inodeBitmap (decodeSB v.block0).total_inodes = some ino)
    (hb : blocksNeeded L ≤ (allocatedBlocks v L).length)
    (hs : findFreeSlot (decodeDirents (readData (stagedVolume v content L ino)
      (rootDirBlockNum (stagedVolume v content L ino)))) = some slot)
    (hbne : rootDirBlockNum (stagedVolume v content L ino) ≠ b) :
    readData (inject v content L destPath).2 b = readData (stagedVolume v content L ino) b := by
  rw [inject_ok v content L destPath ino slot hm hn hi hb hs]
  show ((List.lookup b (_ :: (stagedVolume v content L ino).dataBlocks)).getD 0) = _
  rw [lookup_cons_ne _ _ _ _ hbne]
  rfl

theorem inject_ok_block0 (v : Volume) (content L : Nat) (destPath : List Nat)
    (ino slot : Nat)
    (hm : (decodeSB v.block0).magic = MESAFS_MAGIC)
    (hn : blocksNeeded L ≤ MESAFS_DIRECT_BLOCKS)
    (hi : scanFreeInode v.inodeBitmap (decodeSB v.block0).total_inodes = some ino)
    (hb : blocksNeeded L ≤ (allocatedBlocks v L).length)
    (hs : findFreeSlot (decodeDirents (readData (stagedVolume v content L ino)
      (rootDirBlockNum (stagedVolume v content L ino)))) = some slot) :
    (inject v content L destPath).2.block0 =
      overlaySB { decodeSB v.block0 with
          free_inodes := sub32 (decodeSB v.block0).free_inodes 1
          free_blocks := sub32 (decodeSB v.block0).free_blocks (allocatedBlocks v L).length }
        (allocBlocks v.block0 (MESAFS_DATA_START + 1) (decodeSB v.block0).total_blocks
          (blocksNeeded L) []).1 := by
  rw [inject_ok v content L destPath ino slot hm hn hi hb hs]

/-- The entry read back from the root directory block after a successful
injection is exactly the record the injector constructed. -/
theorem inject_ok_entry (v : Volume) (content L : Nat) (destPath : List Nat) (ino slot : Nat)
    (hm : (decodeSB v.block0).magic = MESAFS_MAGIC)
    (hn : blocksNeeded L ≤ MESAFS_DIRECT_BLOCKS)
    (hi : scanFreeInode v.inodeBitmap (decodeSB v.block0).total_inodes = some ino)
    (hb : blocksNeeded L ≤ (allocatedBlocks v L).length)
    (hs : findFreeSlot (decodeDirents (readData (stagedVolume v content L ino)
      (rootDirBlockNum (stagedVolume v content L ino)))) = some slot)
    (hino : ino < 4294967296) :
    (decodeDirents (readData (inject v content L destPath).2
        (rootDirBlockNum (stagedVolume v content L ino)))).getD slot direntDefault =
      mkInjectDirent ino (extractFilename destPath)
        ((decodeDirents (readData (stagedVolume v content L ino)
            (rootDirBlockNum (stagedVolume v content L ino)))).getD slot direntDefault) := by
  have hk : slot < 64 := (findFreeSlot_some _ _ hs).1
  have hbounds := decodeDirents_getD_bounds
    (readData (stagedVolume v content L ino) (rootDirBlockNum (stagedVolume v content L ino)))
    slot hk
  rw [inject_ok_readDir v content L destPath ino slot hm hn hi hb hs]
  set es := decodeDirents (readData (stagedVolume v content L ino)
    (rootDirBlockNum (stagedVolume v content L ino))) with hes
  set e' := mkInjectDirent ino (extractFilename destPath) (es.getD slot direntDefault) with he'
  have h64 : (es.set slot e').length = 64 := by
    rw [List.length_set, hes, decodeDirents_length]
  have hget : (es.set slot e').getD slot direntDefault = e' := by
    rw [List.getD_eq_getElem _ _ (by omega)]
    simp
  have hbe := mkInjectDirent_bounds ino (extractFilename destPath) (es.getD slot direntDefault)
    hino hbounds.2.2.2
  rw [decodeDirents_encodeDirents_getD (es.set slot e') slot h64 hk
    (by rw [hget]; exact hbe.1) (by rw [hget]; exact hbe.2.1)
    (by rw [hget]; exact hbe.2.2.1) (by rw [hget]; exact hbe.2.2.2), hget]

/-! ## Claim C5: the name stored for the injected file -/

def pkgsDest : List Nat := [47, 112, 107, 103, 115, 47, 120, 46, 109, 115, 97]

/-- C5 as stated is false: for destination `"/pkgs/x.msa"` the injector does
*not* store the final path segment `"x.msa"`; it strips exactly one leading
`'/'` and stores the whole remainder `"pkgs/x.msa"` (interior separators and
all) as the entry name. -/
theorem C5_counterexample :
    (inject (format 64) 7 1 pkgsDest).1 = .ok (2, [11]) ∧
    printedName ((decodeDirents (readData (inject (format 64) 7 1 pkgsDest).2 10)).getD 0
        direntDefault).name = [112, 107, 103, 115, 47, 120, 46, 109, 115, 97] ∧
    [112, 107, 103, 115, 47, 120, 46, 109, 115, 97] ≠ ([120, 46, 109, 115, 97] : List Nat) := by
  refine ⟨by decide, by decide, by decide⟩

/-- C5 amended: for every successful injection, the directory entry inserted
into the root directory carries as its name the destination path with a
single leading `'/'` stripped (`extractFilename`), truncated to the 56-byte
`strncpy` bound — not the final path segment.  The stored `name_len` is the
full stripped-path length modulo 256. -/
theorem C5_filename_amended (v : Volume) (content L : Nat) (destPath : List Nat)
    (ino slot : Nat)
    (hm : (decodeSB v.block0).magic = MESAFS_MAGIC)
    (hn : blocksNeeded L ≤ MESAFS_DIRECT_BLOCKS)
    (hi : scanFreeInode v.inodeBitmap (decodeSB v.block0).total_inodes = some ino)
    (hb : blocksNeeded L ≤ (allocatedBlocks v L).length)
    (hs : findFreeSlot (decodeDirents (readData (stagedVolume v content L ino)
      (rootDirBlockNum (stagedVolume v content L ino)))) = some slot)
    (hino : ino < 4294967296) :
    (inject v content L destPath).1 = .ok (ino, allocatedBlocks v L) ∧
    (decodeDirents (readData (inject v content L destPath).2
        (rootDirBlockNum (stagedVolume v content L ino)))).getD slot direntDefault =
      mkInjectDirent ino (extractFilename destPath)
        ((decodeDirents (readData (stagedVolume v content L ino)
            (rootDirBlockNum (stagedVolume v content L ino)))).getD slot direntDefault) ∧
    bytesTake ((decodeDirents (readData (inject v content L destPath).2
        (rootDirBlockNum (stagedVolume v content L ino)))).getD slot direntDefault).name
        MESAFS_MAX_FILENAME =
      bytesTake (natOfBytes (extractFilename destPath)) MESAFS_MAX_FILENAME ∧
    ((decodeDirents (readData (inject v content L destPath).2
        (rootDirBlockNum (stagedVolume v content L ino)))).getD slot direntDefault).name_len =
      (extractFilename destPath).length % 256 := by
  have hent := inject_ok_entry v content L destPath ino slot hm hn hi hb hs hino
  refine ⟨by rw [inject_ok v content L destPath ino slot hm hn hi hb hs], hent, ?_, ?_⟩
  · rw [hent, mkInjectDirent_name_take]
  · rw [hent, mkInjectDirent_name_len]

/-- Witness for the amended C5: fresh 64-block volume, destination
`"/pkgs/x.msa"`; the stored name bytes are those of `"pkgs/x.msa"`. -/
theorem C5_filename_amended_witness :
    ((decodeSB (format 64).block0).magic = MESAFS_MAGIC ∧
     blocksNeeded 1 ≤ MESAFS_DIRECT_BLOCKS ∧
     scanFreeInode (format 64).inodeBitmap (decodeSB (format 64).block0).total_inodes =
       some 2 ∧
     blocksNeeded 1 ≤ (allocatedBlocks (format 64) 1).length ∧
     findFreeSlot (decodeDirents (readData (stagedVolume (format 64) 7 1 2)
       (rootDirBlockNum (stagedVolume (format 64) 7 1 2)))) = some 0 ∧
     2 < 4294967296) ∧
    (inject (format 64) 7 1 pkgsDest).1 = .ok (2, allocatedBlocks (format 64) 1) ∧
    ((decodeDirents (readData (inject (format 64) 7 1 pkgsDest).2
        (rootDirBlockNum (stagedVolume (format 64) 7 1 2)))).getD 0 direntDefault).name_len =
      (extractFilename pkgsDest).length % 256 := by
  have h := C5_filename_amended (format 64) 7 1 pkgsDest 2 0 (by decide) (by decide)
    (by decide) (by decide) (by decide) (by decide)
  exact ⟨⟨by decide, by decide, by decide, by decide, by decide, by decide⟩, h.1, h.2.2.2⟩

/-! ## Claim C8: the directory-entry invariant -/

def longDest : List Nat := 47 :: List.replicate 59 97

/-- C8 as stated is false: the injector stores
`name_len = strlen(filename)` without enforcing the 58-byte buffer bound.
Concrete input: destination `"/" ++ 59 × 'a'` yields an entry whose stored
name length is 59 > 58 (while `strncpy` copied only 56 bytes of the name). -/
theorem C8_counterexample :
    (inject (format 64) 7 1 longDest).1 = .ok (2, [11]) ∧
    ((decodeDirents (readData (inject (format 64) 7 1 longDest).2 10)).getD 0
        direntDefault).name_len = 59 ∧
    ¬ ((decodeDirents (readData (inject (format 64) 7 1 longDest).2 10)).getD 0
        direntDefault).name_len ≤ 58 := by
  refine ⟨by decide, by decide, by decide⟩

/-- C8 amended: the inode-0-means-free convention holds (the formatter writes
all 64 root-directory entries with inode 0 and zero name length, and the
injector claims a slot whose inode field was 0 and overwrites it with the new
inode number, which is at least 2, hence occupied); the stored name length
equals the stripped destination path's length and satisfies the 58-byte
buffer bound **provided** that path is at most 58 bytes — for longer
destinations the bound is violated (see the counterexample). -/
theorem C8_dirent_invariant_amended (v : Volume) (content L : Nat) (destPath : List Nat)
    (ino slot : Nat)
    (hm : (decodeSB v.block0).magic = MESAFS_MAGIC)
    (hn : blocksNeeded L ≤ MESAFS_DIRECT_BLOCKS)
    (hi : scanFreeInode v.inodeBitmap (decodeSB v.block0).total_inodes = some ino)
    (hb : blocksNeeded L ≤ (allocatedBlocks v L).length)
    (hs : findFreeSlot (decodeDirents (readData (stagedVolume v content L ino)
      (rootDirBlockNum (stagedVolume v content L ino)))) = some slot)
    (hino : ino < 4294967296)
    (hflen : (extractFilename destPath).length ≤ 58) :
    (∀ B, ∀ e ∈ decodeDirents (readData (format B) MESAFS_DATA_START),
      e.inode = 0 ∧ e.name_len = 0) ∧
    ((decodeDirents (readData (stagedVolume v content L ino)
        (rootDirBlockNum (stagedVolume v content L ino)))).getD slot direntDefault).inode = 0 ∧
    ((decodeDirents (readData (inject v content L destPath).2
        (rootDirBlockNum (stagedVolume v content L ino)))).getD slot direntDefault).inode =
      ino ∧
    2 ≤ ino ∧
    ((decodeDirents (readData (inject v content L destPath).2
        (rootDirBlockNum (stagedVolume v content L ino)))).getD slot direntDefault).name_len =
      (extractFilename destPath).length ∧
    ((decodeDirents (readData (inject v content L destPath).2
        (rootDirBlockNum (stagedVolume v content L ino)))).getD slot direntDefault).name_len ≤
      58 := by
  have hent := inject_ok_entry v content L destPath ino slot hm hn hi hb hs hino
  have hlen : ((decodeDirents (readData (inject v content L destPath).2
      (rootDirBlockNum (stagedVolume v content L ino)))).getD slot direntDefault).name_len =
      (extractFilename destPath).length := by
    rw [hent, mkInjectDirent_name_len]
    omega
  refine ⟨?_, (findFreeSlot_some _ _ hs).2, by rw [hent]; rfl,
    (scanFreeInode_some _ _ _ hi).1, hlen, by omega⟩
  intro B e he
  rw [show readData (format B) MESAFS_DATA_START = 0 from rfl] at he
  have hall : ∀ x ∈ decodeDirents 0, x.inode = 0 ∧ x.name_len = 0 := by decide
  exact hall e he

/-- Witness for the amended C8: fresh 64-block volume, destination `"/a"`. -/
theorem C8_dirent_invariant_amended_witness :
    ((decodeSB (format 64).block0).magic = MESAFS_MAGIC ∧
     blocksNeeded 1 ≤ MESAFS_DIRECT_BLOCKS ∧
     scanFreeInode (format 64).inodeBitmap (decodeSB (format 64).block0).total_inodes =
       some 2 ∧
     blocksNeeded 1 ≤ (allocatedBlocks (format 64) 1).length ∧
     findFreeSlot (decodeDirents (readData (stagedVolume (format 64) 7 1 2)
       (rootDirBlockNum (stagedVolume (format 64) 7 1 2)))) = some 0 ∧
     2 < 4294967296 ∧ (extractFilename [47, 97]).length ≤ 58) ∧
    ((decodeDirents (readData (inject (format 64) 7 1 [47, 97]).2
        (rootDirBlockNum (stagedVolume (format 64) 7 1 2)))).getD 0 direntDefault).inode = 2 ∧
    ((decodeDirents (readData (inject (format 64) 7 1 [47, 97]).2
        (rootDirBlockNum (stagedVolume (format 64) 7 1 2)))).getD 0 direntDefault).name_len ≤
      58 := by
  have h := C8_dirent_invariant_amended (format 64) 7 1 [47, 97] 2 0 (by decide) (by decide)
    (by decide) (by decide) (by decide) (by decide) (by decide)
  exact ⟨⟨by decide, by decide, by decide, by decide, by decide, by decide, by decide⟩,
    h.2.2.1, h.2.2.2.2.2⟩

/-! ## Claim C2: block-allocation uniqueness across calls -/

/-- C2 fails on the code (code bug): on a fresh 64-block volume, injecting a
1-byte file allocates data block 11; injecting a second 1-byte file then
allocates data block **11 again**, overwriting the first file's data.  The
allocation scan marks bit 11 in the in-memory copy of block 0, but that bit
lives inside the first 512 bytes of block 0, which the write-back replaces
with the superblock image (`memcpy(block, &sb_copy, sizeof(sb_copy))` before
`write_block(0, block)`), so no allocation of a block below index 4096 is
ever persisted in the on-disk block bitmap.  The second call therefore sees
bit 11 clear again: the first byte written was 7, and after the second call
block 11 holds 9. -/
theorem C2_reallocation_bug :
    (inject (format 64) 7 1 [47, 97, 0]).1 = .ok (2, [11]) ∧
    (inject ((inject (format 64) 7 1 [47, 97, 0]).2) 9 1 [47, 98, 0]).1 = .ok (3, [11]) ∧
    readData ((inject (format 64) 7 1 [47, 97, 0]).2) 11 = 7 ∧
    readData ((inject ((inject (format 64) 7 1 [47, 97, 0]).2) 9 1 [47, 98, 0]).2) 11 = 9 ∧
    bitmap_test ((inject (format 64) 7 1 [47, 97, 0]).2).block0 11 = false := by
  refine ⟨by decide, by decide, by decide, by decide, by decide⟩

/-! ## Claim C3: format/inject/inspect round trip — infrastructure -/

theorem bitmap_test_set_ne (bm j i : Nat) (h : i ≠ j) :
    bitmap_test (bitmap_set bm j) i = bitmap_test bm i := by
  have h1 : (1 <<< j : Nat) = 2 ^ j := by rw [Nat.shiftLeft_eq, one_mul]
  simp [bitmap_set, bitmap_test, Nat.testBit_lor, h1,
    Nat.testBit_two_pow_of_ne (fun he => h he.symm)]

theorem bitmap_set_comm (bm j i : Nat) :
    bitmap_set (bitmap_set bm j) i = bitmap_set (bitmap_set bm i) j := by
  simp only [bitmap_set, Nat.lor_assoc]
  rw [Nat.lor_comm (1 <<< j) (1 <<< i)]

theorem allocBlocksFuel_set_out (fuel : Nat) : ∀ bm j i needed acc, j < i →
    (allocBlocksFuel (bitmap_set bm j) i needed acc fuel).2 =
      (allocBlocksFuel bm i needed acc fuel).2 := by
  induction fuel with
  | zero => intro bm j i needed acc hj; rfl
  | succ f ih =>
    intro bm j i needed acc hj
    simp only [allocBlocksFuel]
    by_cases hl : acc.length < needed
    · simp only [hl, if_true, bitmap_test_set_ne bm j i (by omega)]
      by_cases ht : bitmap_test bm i
      · simp only [ht, if_true]
        exact ih bm j (i + 1) needed acc (by omega)
      · simp only [ht, Bool.false_eq_true, if_false, bitmap_set_comm bm j i]
        exact ih (bitmap_set bm i) j (i + 1) needed (acc ++ [i]) (by omega)
    · simp only [hl, if_false]

/-- The number of clear bits in `[i, i + fuel)`. -/
def freeCount (bm i : Nat) : Nat → Nat
  | 0 => 0
  | f + 1 => (if bitmap_test bm i then 0 else 1) + freeCount bm (i + 1) f

theorem freeCount_add (bm : Nat) (a : Nat) :
    ∀ i b, freeCount bm i (a + b) = freeCount bm i a + freeCount bm (i + a) b := by
  induction a with
  | zero => intro i b; simp [freeCount]
  | succ a ih =>
    intro i b
    rw [show a + 1 + b = (a + b) + 1 by omega]
    simp only [freeCount]
    rw [ih (i + 1) b, show i + (a + 1) = i + 1 + a by omega]
    omega

theorem allocBlocksFuel_len (fuel : Nat) : ∀ bbm i needed acc, acc.length ≤ needed →
    (allocBlocksFuel bbm i needed acc fuel).2.length =
      min needed (acc.length + freeCount bbm i fuel) := by
  induction fuel with
  | zero => intro bbm i needed acc h; simp [allocBlocksFuel, freeCount]; omega
  | succ f ih =>
    intro bbm i needed acc h
    simp only [allocBlocksFuel, freeCount]
    by_cases hl : acc.length < needed
    · simp only [hl, if_true]
      by_cases ht : bitmap_test bbm i
      · simp only [ht, if_true]
        rw [ih bbm (i + 1) needed acc h]
        omega
      · simp only [ht, Bool.false_eq_true, if_false]
        rw [allocBlocksFuel_set_out f bbm i (i + 1) needed (acc ++ [i]) (by omega),
          ih bbm (i + 1) needed (acc ++ [i]) (by simp; omega)]
        simp only [List.length_append, List.length_cons, List.length_nil]
        omega
    · simp only [hl, if_false]
      omega

theorem allocBlocksFuel_props (fuel : Nat) : ∀ bbm i needed acc, acc.Nodup →
    (∀ x ∈ acc, x < i) →
    (allocBlocksFuel bbm i needed acc fuel).2.Nodup ∧
    (∀ x ∈ (allocBlocksFuel bbm i needed acc fuel).2, x ∈ acc ∨ i ≤ x) := by
  induction fuel with
  | zero => intro bbm i needed acc h1 h2; exact ⟨h1, fun x hx => Or.inl hx⟩
  | succ f ih =>
    intro bbm i needed acc h1 h2
    simp only [allocBlocksFuel]
    by_cases hl : acc.length < needed
    · simp only [hl, if_true]
      by_cases ht : bitmap_test bbm i
      · simp only [ht, if_true]
        have := ih bbm (i + 1) needed acc h1 (fun x hx => by have := h2 x hx; omega)
        exact ⟨this.1, fun x hx => by rcases this.2 x hx with h | h; exact Or.inl h; exact Or.inr (by omega)⟩
      · simp only [ht, Bool.false_eq_true, if_false]
        have hnd : (acc ++ [i]).Nodup := by
          simp [List.nodup_append, h1]
          intro hmem
          exact absurd (h2 i hmem) (by omega)
        have hlt : ∀ x ∈ acc ++ [i], x < i + 1 := by
          intro x hx
          rcases List.mem_append.mp hx with h | h
          · have := h2 x h; omega
          · simp at h; omega
        have := ih (bitmap_set bbm i) (i + 1) needed (acc ++ [i]) hnd hlt
        refine ⟨this.1, fun x hx => ?_⟩
        rcases this.2 x hx with h | h
        · rcases List.mem_append.mp h with h | h
          · exact Or.inl h
          · simp at h; exact Or.inr (by omega)
        · exact Or.inr (by omega)
    · simp only [hl, if_false]
      exact ⟨h1, fun x hx => Or.inl hx⟩

/-- Decoded fields of the freshly formatted superblock. -/
theorem format_magic (B : Nat) : (decodeSB (format B).block0).magic = MESAFS_MAGIC := by
  rw [format_block0_eq, decodeSB_overlay_magic]; rfl

theorem format_total_inodes (B : Nat) : (decodeSB (format B).block0).total_inodes = 256 := by
  rw [format_block0_eq, decodeSB_overlay_total_inodes]; rfl

theorem format_root_inode (B : Nat) : (decodeSB (format B).block0).root_inode = 1 := by
  rw [format_block0_eq, decodeSB_overlay_root_inode]; rfl

theorem format_total_blocks (B : Nat) (hB : B < 4294967296) :
    (decodeSB (format B).block0).total_blocks = B := by
  rw [format_block0_eq, decodeSB_overlay_total_blocks]
  simp only [mkSuperblock, M32]
  omega

/-- Bits 11–28 of the written block 0 follow the fixed superblock bytes
(magic bytes 0x53, 0x45, 0x4D and version byte 1), independently of `B`. -/
theorem format_block0_testBit (B i : Nat) (h1 : 11 ≤ i) (h2 : i ≤ 28) :
    bitmap_test (format B).block0 i = Nat.testBit 5591356225 i := by
  rw [show bitmap_test (format B).block0 i = ((format B).block0).testBit i from rfl,
    format_block0_val]
  simp only [encodeSB, mkSuperblock, MESAFS_MAGIC, MESAFS_BLOCK_SIZE, MESAFS_DATA_START,
    sub32, M32, bytesTake, Nat.shiftLeft_eq]
  interval_cases i <;>
    · simp only [Nat.testBit_to_div_mod, decide_eq_true_eq, decide_eq_false_iff_not,
        decide_eq_decide]
      norm_num
      omega

/-! ## Payload chunking -/

/-- The chunk values the payload loop writes: `k` chunks of `content`,
starting at byte offset `o` (4096 bytes each, the last `L - o` short). -/
def chunkList (content L : Nat) : Nat → Nat → List Nat
  | 0, _ => []
  | k + 1, o =>
    (if L - o > MESAFS_BLOCK_SIZE then bytesTake (bytesDrop content o) MESAFS_BLOCK_SIZE
     else bytesTake (bytesDrop content o) (L - o)) ::
      chunkList content L k (o + (if L - o > MESAFS_BLOCK_SIZE then MESAFS_BLOCK_SIZE else L - o))

theorem chunkList_length (content L : Nat) :
    ∀ k o, (chunkList content L k o).length = k := by
  intro k
  induction k with
  | zero => intro o; rfl
  | succ j ih => intro o; simp [chunkList, ih]

theorem writePayload_dataBlocks (bs : List Nat) :
    ∀ (v : Volume) (content L o : Nat),
      (writePayload v bs content L o).dataBlocks =
        (bs.zip (chunkList content L bs.length o)).reverse ++ v.dataBlocks := by
  induction bs with
  | nil => intro v content L o; rfl
  | cons b tl ih =>
    intro v content L o
    show (writePayload (writeData v b _) tl content L _).dataBlocks = _
    rw [ih]
    by_cases hc : L - o > MESAFS_BLOCK_SIZE
    · simp [chunkList, hc, writeData, List.zip_cons_cons]
    · simp [chunkList, hc, writeData, List.zip_cons_cons]

theorem lookup_append_keys_ne (l2 : List (Nat × Nat)) (k : Nat) :
    ∀ l1 : List (Nat × Nat), (∀ p ∈ l1, p.1 ≠ k) →
      List.lookup k (l1 ++ l2) = List.lookup k l2 := by
  intro l1
  induction l1 with
  | nil => intro h; rfl
  | cons p tl ih =>
    intro h
    cases p with
    | mk a x =>
      have ha : (k == a) = false := by
        have h2 := h (a, x) (by simp)
        simp only [ne_eq] at h2
        exact beq_eq_false_iff_ne.mpr (fun he => h2 he.symm)
      simp only [List.cons_append, List.lookup, ha]
      exact ih (fun q hq => h q (by simp [hq]))

theorem lookup_zip_reverse (bs : List Nat) :
    ∀ (cs : List Nat) (j : Nat) (rest : List (Nat × Nat)), bs.Nodup → j < bs.length →
      bs.length ≤ cs.length →
      List.lookup (bs.getD j 0) ((bs.zip cs).reverse ++ rest) = some (cs.getD j 0) := by
  induction bs with
  | nil => intro cs j rest h1 h2 h3; simp at h2
  | cons b tl ih =>
    intro cs j rest h1 h2 h3
    cases cs with
    | nil => simp at h3
    | cons c cs' =>
      rw [List.zip_cons_cons, List.reverse_cons, List.append_assoc]
      cases j with
      | zero =>
        have hb : ∀ p ∈ (tl.zip cs').reverse, p.1 ≠ b := by
          intro p hp
          have hmem : p ∈ tl.zip cs' := List.mem_reverse.mp hp
          have : p.1 ∈ tl := (List.mem_zip hmem).1
          have hbtl : b ∉ tl := (List.nodup_cons.mp h1).1
          intro he
          rw [he] at this
          exact hbtl this
        rw [show (b :: tl).getD 0 0 = b from rfl,
          lookup_append_keys_ne _ b ((tl.zip cs').reverse) hb]
        simp [List.lookup]
      | succ j' =>
        have := ih cs' j' ((b, c) :: rest) (List.nodup_cons.mp h1).2 (by simpa using h2)
          (by simpa using h3)
        simpa using this


/-- Concatenating the payload chunks written beyond the end of the content
gives zero bytes. -/
theorem chunkList_concat_past (content L : Nat) :
    ∀ k o, L ≤ o → concatBlocks (chunkList content L k o) = 0 := by
  intro k
  induction k with
  | zero => intro o h; rfl
  | succ j ih =>
    intro o h
    have hc : ¬(L - o > MESAFS_BLOCK_SIZE) := by
      simp only [MESAFS_BLOCK_SIZE]; omega
    have h0 : L - o = 0 := by omega
    simp only [chunkList, hc, if_false, concatBlocks]
    rw [h0, ih (o + 0) (by omega), Nat.zero_shiftLeft]
    simp only [bytesTake, pow_zero]
    omega

/-- Concatenating the `k` payload chunks from offset `o` reconstructs the
content from byte `o` on, provided the chunks cover it. -/
theorem chunkList_concat (content L : Nat) (hc : content < 256 ^ L) :
    ∀ k o, L ≤ o + MESAFS_BLOCK_SIZE * k →
      concatBlocks (chunkList content L k o) = bytesDrop content o := by
  intro k
  induction k with
  | zero =>
    intro o h
    simp only [MESAFS_BLOCK_SIZE] at h
    have hL : L ≤ o := by omega
    have hb : content < 256 ^ o :=
      lt_of_lt_of_le hc (Nat.pow_le_pow_right (by norm_num) hL)
    show (0 : Nat) = bytesDrop content o
    simp only [bytesDrop, Nat.shiftRight_eq_div_pow]
    rw [eq_comm, Nat.div_eq_of_lt]
    calc content < 256 ^ o := hb
    _ = 2 ^ (8 * o) := by rw [show (256:Nat) = 2 ^ 8 from rfl, ← pow_mul]
  | succ j ih =>
    intro o h
    by_cases hgt : L - o > MESAFS_BLOCK_SIZE
    · simp only [chunkList, hgt, if_true, concatBlocks]
      rw [ih (o + MESAFS_BLOCK_SIZE) (by simp only [MESAFS_BLOCK_SIZE] at *; omega),
        ← bytesDrop_bytesDrop]
      simp only [bytesTake, bytesDrop, MESAFS_BLOCK_SIZE, Nat.shiftLeft_eq,
        Nat.shiftRight_eq_div_pow]
      norm_num
      omega
    · simp only [chunkList, hgt, if_false, concatBlocks]
      rw [chunkList_concat_past content L j (o + (L - o)) (by omega), Nat.zero_shiftLeft]
      by_cases hLo : L ≤ o
      · have hb : content < 2 ^ (8 * o) := by
          calc content < 256 ^ L := hc
          _ ≤ 256 ^ o := Nat.pow_le_pow_right (by norm_num) hLo
          _ = 2 ^ (8 * o) := by rw [show (256:Nat) = 2 ^ 8 from rfl, ← pow_mul]
        simp only [bytesTake, bytesDrop, Nat.shiftLeft_eq, Nat.shiftRight_eq_div_pow]
        rw [show L - o = 0 by omega]
        rw [Nat.div_eq_of_lt hb]
        simp
      · have hdrop : bytesDrop content o < 256 ^ (L - o) := by
          simp only [bytesDrop, Nat.shiftRight_eq_div_pow]
          have h8 : (2:Nat) ^ (8 * o) = 256 ^ o := by
            rw [show (256:Nat) = 2 ^ 8 from rfl, ← pow_mul]
          rw [h8]
          apply Nat.div_lt_of_lt_mul
          calc content < 256 ^ L := hc
          _ = 256 ^ o * 256 ^ (L - o) := by rw [← pow_add]; congr 1; omega
        rw [show bytesTake (bytesDrop content o) (L - o) = bytesDrop content o from
          Nat.mod_eq_of_lt hdrop]
        simp

/-- Collapsing `getD` over `List.range`. -/
theorem map_range_getD (l : List Nat) :
    (List.range l.length).map (fun j => l.getD j 0) = l := by
  induction l with
  | nil => rfl
  | cons a tl ih =>
    rw [show (a :: tl).length = tl.length + 1 from rfl, List.range_succ_eq_map,
      List.map_cons, List.map_map]
    show a :: (List.range tl.length).map (fun j => tl.getD j 0) = a :: tl
    rw [ih]

theorem getD_take_append (bs : List Nat) (j n m : Nat) (hj : j < bs.length) (hjn : j < n) :
    ((bs ++ List.replicate m 0).take n).getD j 0 = bs.getD j 0 := by
  have hlen : j < ((bs ++ List.replicate m 0).take n).length := by
    simp
    omega
  rw [List.getD_eq_getElem _ _ hlen, List.getD_eq_getElem _ _ hj]
  rw [List.getElem_take]
  exact List.getElem_append_left hj

/-! ## Claim C3: the format / inject / inspect round trip -/

/-- Two bitmaps that agree on `[i, i + fuel)` have the same free count. -/
theorem freeCount_congr (bm1 bm2 : Nat) :
    ∀ fuel i, (∀ j, i ≤ j → j < i + fuel → bitmap_test bm1 j = bitmap_test bm2 j) →
      freeCount bm1 i fuel = freeCount bm2 i fuel := by
  intro fuel
  induction fuel with
  | zero => intro i h; rfl
  | succ f ih =>
    intro i h
    simp only [freeCount]
    rw [h i (le_refl i) (by omega), ih (i + 1) (fun j h1 h2 => h j (by omega) (by omega))]

theorem stagedVolume_dataBlocks (v : Volume) (content L ino : Nat) :
    (stagedVolume v content L ino).dataBlocks =
      ((allocatedBlocks v L).zip
        (chunkList content L (allocatedBlocks v L).length 0)).reverse ++ v.dataBlocks := by
  show (writePayload v (allocatedBlocks v L) content L 0).dataBlocks = _
  exact writePayload_dataBlocks _ v content L 0

theorem mkFileInode_blocks_used (ino L : Nat) (blocks : List Nat) :
    (mkFileInode ino L blocks).blocks_used = blocks.length := rfl

theorem mkFileInode_size (ino L : Nat) (blocks : List Nat) :
    (mkFileInode ino L blocks).size = L % M32 := rfl

theorem mkFileInode_direct (ino L : Nat) (blocks : List Nat) :
    (mkFileInode ino L blocks).direct_blocks =
      (blocks ++ List.replicate MESAFS_DIRECT_BLOCKS 0).take MESAFS_DIRECT_BLOCKS := rfl

/-- The destination path `"/hello.msa"` of the round-trip property. -/
def helloDest : List Nat := [47, 104, 101, 108, 108, 111, 46, 109, 115, 97]

/-- The bytes of `"hello.msa"`. -/
def helloName : List Nat := [104, 101, 108, 108, 111, 46, 109, 115, 97]

/-- Claim C3 (round trip): on a freshly formatted volume of `B` blocks
(`29 ≤ B < 2^32`, enough for ten data blocks), injecting a file with
destination path `"/hello.msa"` and content of `L ≤ 40960` bytes succeeds,
and afterwards the Volume Inspector reports exactly one occupied
root-directory entry — slot 0, the allocated inode 2, type file, name
`"hello.msa"` — while the inode's recorded size is `L` and its direct data
blocks, concatenated in order and truncated to `L` bytes, reproduce the
injected content exactly. -/
theorem C3_roundtrip (B content L : Nat) (hB : 29 ≤ B) (hB2 : B < 4294967296)
    (hL : L ≤ 40960) (hc : content < 256 ^ L) :
    (inject (format B) content L helloDest).1 = .ok (2, allocatedBlocks (format B) L) ∧
    inspect (inject (format B) content L helloDest).2 =
      some [(0, 2, MESAFS_TYPE_FILE, helloName)] ∧
    (inodeAt (inject (format B) content L helloDest).2 2).size = L ∧
    fileBytes (inject (format B) content L helloDest).2 2 = content := by
  have hneed1 : blocksNeeded L ≤ 10 := by
    simp only [blocksNeeded, MESAFS_BLOCK_SIZE, M32]
    split <;> omega
  have hm : (decodeSB (format B).block0).magic = MESAFS_MAGIC := format_magic B
  have hn : blocksNeeded L ≤ MESAFS_DIRECT_BLOCKS := by
    simp only [MESAFS_DIRECT_BLOCKS]; exact hneed1
  have hi2 : scanFreeInode (format B).inodeBitmap (decodeSB (format B).block0).total_inodes =
      some 2 := by
    rw [format_total_inodes]
    show scanFreeInode formatInodeBitmap 256 = some 2
    decide
  have hfc : freeCount (format B).block0 11 18 = 10 := by
    rw [freeCount_congr (format B).block0 5591356225 18 11
      (fun j h1 h2 => format_block0_testBit B j h1 (by omega))]
    decide
  have hsplit : freeCount (format B).block0 11 (B - 11) =
      freeCount (format B).block0 11 18 + freeCount (format B).block0 29 (B - 29) := by
    rw [show B - 11 = 18 + (B - 29) by omega]
    exact freeCount_add (format B).block0 18 11 (B - 29)
  have hbig : blocksNeeded L ≤ freeCount (format B).block0 11 (B - 11) := by
    rw [hsplit, hfc]
    omega
  have hD : MESAFS_DATA_START + 1 = 11 := rfl
  have h0 : allocatedBlocks (format B) L =
      (allocBlocks (format B).block0 (MESAFS_DATA_START + 1) B (blocksNeeded L) []).2 := by
    rw [← allocatedBlocks_def (format B) L, format_total_blocks B hB2]
  have hlenfuel : (allocBlocks (format B).block0 (MESAFS_DATA_START + 1) B
        (blocksNeeded L) []).2.length =
      min (blocksNeeded L) (List.length ([] : List Nat) +
        freeCount (format B).block0 (MESAFS_DATA_START + 1) (B - (MESAFS_DATA_START + 1))) :=
    allocBlocksFuel_len (B - (MESAFS_DATA_START + 1)) (format B).block0
      (MESAFS_DATA_START + 1) (blocksNeeded L) [] (by simp)
  rw [hD] at h0 hlenfuel
  have hlen : (allocatedBlocks (format B) L).length = blocksNeeded L := by
    rw [h0, hlenfuel]
    simp only [List.length_nil, Nat.zero_add]
    omega
  have hballoc : blocksNeeded L ≤ (allocatedBlocks (format B) L).length := le_of_eq hlen.symm
  have hpr : (allocBlocks (format B).block0 (MESAFS_DATA_START + 1) B
        (blocksNeeded L) []).2.Nodup ∧
      (∀ x ∈ (allocBlocks (format B).block0 (MESAFS_DATA_START + 1) B
        (blocksNeeded L) []).2, x ∈ ([] : List Nat) ∨ MESAFS_DATA_START + 1 ≤ x) :=
    allocBlocksFuel_props (B - (MESAFS_DATA_START + 1)) (format B).block0
      (MESAFS_DATA_START + 1) (blocksNeeded L) [] List.nodup_nil
      (fun x hx => absurd hx (List.not_mem_nil x))
  rw [hD] at hpr
  have hnd : (allocatedBlocks (format B) L).Nodup := by
    rw [h0]; exact hpr.1
  have hge : ∀ x ∈ allocatedBlocks (format B) L, 11 ≤ x := by
    rw [h0]
    intro x hx
    rcases hpr.2 x hx with h | h
    · exact absurd h (List.not_mem_nil x)
    · exact h
  have hrd : rootDirBlockNum (stagedVolume (format B) content L 2) = 10 := by
    simp only [rootDirBlockNum]
    rw [stagedVolume_inodeTable]
    rfl
  have hkeys : ∀ p ∈ ((allocatedBlocks (format B) L).zip
      (chunkList content L (allocatedBlocks (format B) L).length 0)).reverse, p.1 ≠ 10 := by
    intro p hp
    have hmem := List.mem_reverse.mp hp
    have h1 : p.1 ∈ allocatedBlocks (format B) L := (List.mem_zip hmem).1
    have := hge p.1 h1
    omega
  have hreadstag : readData (stagedVolume (format B) content L 2) 10 = 0 := by
    simp only [readData]
    rw [stagedVolume_dataBlocks, lookup_append_keys_ne _ 10 _ hkeys]
    rfl
  have hslot : findFreeSlot (decodeDirents (readData (stagedVolume (format B) content L 2)
      (rootDirBlockNum (stagedVolume (format B) content L 2)))) = some 0 := by
    rw [hrd, hreadstag]
    decide
  have hAt : inodeAt (inject (format B) content L helloDest).2 2 =
      mkFileInode 2 L (allocatedBlocks (format B) L) := by
    simp only [inodeAt]
    rw [inject_ok_inodeTable (format B) content L helloDest 2 0 hm hn hi2 hballoc hslot,
      stagedVolume_inodeTable]
    rfl
  have hok := inject_ok_readDir (format B) content L helloDest 2 0 hm hn hi2 hballoc hslot
  rw [hrd] at hok
  rw [hreadstag] at hok
  have hmagic2 : (decodeSB (inject (format B) content L helloDest).2.block0).magic =
      MESAFS_MAGIC := by
    rw [inject_ok_block0 (format B) content L helloDest 2 0 hm hn hi2 hballoc hslot,
      decodeSB_overlay_magic]
    show (decodeSB (format B).block0).magic % M32 = MESAFS_MAGIC
    rw [hm]
    decide
  have hroot2 : (decodeSB (inject (format B) content L helloDest).2.block0).root_inode = 1 := by
    rw [inject_ok_block0 (format B) content L helloDest 2 0 hm hn hi2 hballoc hslot,
      decodeSB_overlay_root_inode]
    show (decodeSB (format B).block0).root_inode % M32 = 1
    rw [format_root_inode]
    decide
  have hrootblk : ((((inject (format B) content L helloDest).2.inodeTable.getD 0 []).getD 1
      emptyInode).direct_blocks.getD 0 0) = 10 := by
    rw [inject_ok_inodeTable (format B) content L helloDest 2 0 hm hn hi2 hballoc hslot]
    exact hrd
  refine ⟨?_, ?_, ?_, ?_⟩
  · rw [inject_ok (format B) content L helloDest 2 0 hm hn hi2 hballoc hslot]
  · simp only [inspect]
    rw [if_neg (by simp [hmagic2] :
      ¬((decodeSB (inject (format B) content L helloDest).2.block0).magic ≠ MESAFS_MAGIC))]
    rw [hroot2, hrootblk, hok]
    decide
  · rw [hAt, mkFileInode_size]
    simp only [M32]
    omega
  · simp only [fileBytes, hAt, mkFileInode_blocks_used, mkFileInode_size, mkFileInode_direct]
    have hmap : (List.range (allocatedBlocks (format B) L).length).map
        (fun j => readData (inject (format B) content L helloDest).2
          (((allocatedBlocks (format B) L ++ List.replicate MESAFS_DIRECT_BLOCKS 0).take
            MESAFS_DIRECT_BLOCKS).getD j 0)) =
        (List.range (allocatedBlocks (format B) L).length).map
        (fun j => (chunkList content L (allocatedBlocks (format B) L).length 0).getD j 0) := by
      apply List.map_congr_left
      intro j hj
      have hjlen : j < (allocatedBlocks (format B) L).length := List.mem_range.mp hj
      have hj10 : j < MESAFS_DIRECT_BLOCKS := by
        simp only [MESAFS_DIRECT_BLOCKS]
        omega
      rw [getD_take_append _ j _ _ hjlen hj10]
      have hmem : (allocatedBlocks (format B) L).getD j 0 ∈ allocatedBlocks (format B) L := by
        rw [List.getD_eq_getElem _ _ hjlen]
        exact List.getElem_mem _
      have hge11 : 11 ≤ (allocatedBlocks (format B) L).getD j 0 := hge _ hmem
      rw [inject_ok_readData_ne (format B) content L helloDest 2 0 _ hm hn hi2 hballoc hslot
        (by rw [hrd]; omega)]
      simp only [readData]
      rw [stagedVolume_dataBlocks, lookup_zip_reverse (allocatedBlocks (format B) L)
        (chunkList content L (allocatedBlocks (format B) L).length 0) j
        ((format B).dataBlocks) hnd hjlen
        (le_of_eq (chunkList_length content L (allocatedBlocks (format B) L).length 0).symm)]
      exact Option.getD_some
    rw [hmap, show List.range (allocatedBlocks (format B) L).length =
        List.range (chunkList content L (allocatedBlocks (format B) L).length 0).length from by
      rw [chunkList_length], map_range_getD]
    have hcover : L ≤ 0 + MESAFS_BLOCK_SIZE * (allocatedBlocks (format B) L).length := by
      rw [hlen]
      simp only [blocksNeeded, MESAFS_BLOCK_SIZE, M32]
      split <;> omega
    rw [chunkList_concat content L hc (allocatedBlocks (format B) L).length 0 hcover]
    rw [show L % M32 = L from by simp only [M32]; omega]
    simp only [bytesDrop, Nat.mul_zero, Nat.shiftRight_zero, bytesTake]
    exact Nat.mod_eq_of_lt hc

/-- Witness for C3 at `B = 64`, a one-byte file with content byte 42. -/
theorem C3_roundtrip_witness :
    ((29:Nat) ≤ 64 ∧ (64:Nat) < 4294967296 ∧ (1:Nat) ≤ 40960 ∧ (42:Nat) < 256 ^ 1) ∧
    ((inject (format 64) 42 1 helloDest).1 = .ok (2, allocatedBlocks (format 64) 1) ∧
     inspect (inject (format 64) 42 1 helloDest).2 =
       some [(0, 2, MESAFS_TYPE_FILE, helloName)] ∧
     (inodeAt (inject (format 64) 42 1 helloDest).2 2).size = 1 ∧
     fileBytes (inject (format 64) 42 1 helloDest).2 2 = 42) :=
  ⟨⟨by decide, by decide, by decide, by decide⟩,
   C3_roundtrip 64 42 1 (by decide) (by decide) (by decide) (by decide)⟩

end MesaFS
